import Mathlib

/-!
Verification of the flow-field navigation core (`navigation` package):
grid model, configuration, and the flow-field navigator with its
FIFO-queue relaxation algorithm, embedded shallowly.

Modelling conventions:
* Go `int` is modelled as `Int` (no overflow is exercised by the
  properties below) and Go slice indexing through total getters with a
  default value; every indexing site in the source is guarded by a
  bounds check, which is reproduced here.
* Go `float64` appears only as the diagonal cost multiplier; it is
  modelled as an exact rational (`ℚ`) with the `int(...)` conversion of
  the product carried out as truncation toward zero
  (`Int.tdiv (c * num) den`).  On the concrete values evaluated here
  (multiplying cost `1` by `1.4`) the exact rational and the IEEE-754
  results coincide.
* The `for len(queue) > 0` relaxation loop is modelled with an explicit
  fuel parameter; a `none` result means the fuel ran out (the Go loop
  would still be running).  Termination of the Go loop is the statement
  that some fuel yields `some`.
* Methods that mutate the receiver return the updated value; a failing
  method returns the receiver as mutated up to the point of failure,
  paired with the error, exactly as the Go methods leave the receiver.
-/

/-- `Position` from types.go: a grid coordinate. -/
@[ext]
structure Position where
  x : Int
  y : Int
deriving DecidableEq

/-- `Direction` from types.go: a movement direction vector. -/
@[ext]
structure Direction where
  x : Int
  y : Int
deriving DecidableEq

/-- `CellType` from types.go. -/
inductive CellType where
  | Passable
  | Obstacle
  | Goal
  | Building
deriving DecidableEq

/-- Errors from errors.go; the `ErrMsg…` constructors stand for the ad-hoc
`errors.New` values created inside flowfield.go (dimension mismatches) and
`Config.Validate` (config.go). -/
inductive NavError where
  | ErrInvalidPosition
  | ErrInvalidCost
  | ErrNoPath
  | ErrInvalidGoal
  | ErrEmptyGrid
  | ErrInvalidDirection
  | ErrMsgHeightMismatch
  | ErrMsgWidthMismatch
  | ErrMsgConfigDims
  | ErrMsgConfigNoDirections
  | ErrMsgConfigDiagonal
deriving DecidableEq

/-- Read entry `(y, x)` of a row-major nested list, with a default
(used only at indices the source never reaches unguarded). -/
def getN (m : List (List α)) (y x : Nat) (d : α) : α :=
  (m.getD y []).getD x d

/-- Write entry `(y, x)` of a row-major nested list (no-op out of range,
matching the guarded writes in the source). -/
def setN (m : List (List α)) (y x : Nat) (v : α) : List (List α) :=
  m.set y ((m.getD y []).set x v)

/-- Indexing with Go `int` coordinates; all call sites are guarded so the
coordinates are nonnegative and in range. -/
def get2 (m : List (List α)) (y x : Int) (d : α) : α :=
  getN m y.toNat x.toNat d

/-- Writing with Go `int` coordinates. -/
def set2 (m : List (List α)) (y x : Int) (v : α) : List (List α) :=
  setN m y.toNat x.toNat v

/-- Go `copy(dst, src)`: overwrites the first `min |dst| |src|` elements of
`dst` with those of `src`. -/
def goCopy (dst src : List α) : List α :=
  src.take (min dst.length src.length) ++ dst.drop (min dst.length src.length)

/-- `Grid` from types.go. -/
structure Grid where
  Width : Int
  Height : Int
  Costs : List (List Int)
  FlowField : List (List Direction)
  Distances : List (List Int)
  CellTypes : List (List CellType)
deriving DecidableEq

/-- `NewGrid` from types.go: all cells passable at cost 1; `Distances` and
`FlowField` get Go zero values. -/
def NewGrid (width height : Int) : Grid :=
  { Width := width
    Height := height
    Costs := List.replicate height.toNat (List.replicate width.toNat 1)
    FlowField := List.replicate height.toNat (List.replicate width.toNat { x := 0, y := 0 })
    Distances := List.replicate height.toNat (List.replicate width.toNat 0)
    CellTypes := List.replicate height.toNat (List.replicate width.toNat CellType.Passable) }

/-- `Grid.IsValidPosition` from types.go. -/
def Grid.IsValidPosition (g : Grid) (pos : Position) : Bool :=
  0 ≤ pos.x && pos.x < g.Width && 0 ≤ pos.y && pos.y < g.Height

/-- `Grid.IsPassable` from types.go. -/
def Grid.IsPassable (g : Grid) (pos : Position) : Bool :=
  if ¬ g.IsValidPosition pos then false
  else get2 g.Costs pos.y pos.x 0 != -1

/-- `Grid.SetObstacle` from types.go: the updated grid, or the error with
the grid unchanged. -/
def Grid.SetObstacle (g : Grid) (pos : Position) : Except NavError Grid :=
  if ¬ g.IsValidPosition pos then Except.error NavError.ErrInvalidPosition
  else Except.ok { g with
    Costs := set2 g.Costs pos.y pos.x (-1)
    CellTypes := set2 g.CellTypes pos.y pos.x CellType.Obstacle }

/-- `Grid.SetBuilding` from types.go. -/
def Grid.SetBuilding (g : Grid) (pos : Position) : Except NavError Grid :=
  if ¬ g.IsValidPosition pos then Except.error NavError.ErrInvalidPosition
  else Except.ok { g with
    Costs := set2 g.Costs pos.y pos.x (-1)
    CellTypes := set2 g.CellTypes pos.y pos.x CellType.Building }

/-- `Grid.SetCost` from types.go: rejects negative costs. -/
def Grid.SetCost (g : Grid) (pos : Position) (cost : Int) : Except NavError Grid :=
  if ¬ g.IsValidPosition pos then Except.error NavError.ErrInvalidPosition
  else if cost < 0 then Except.error NavError.ErrInvalidCost
  else Except.ok { g with Costs := set2 g.Costs pos.y pos.x cost }

/-- `Grid.GetFlowDirection` from types.go. -/
def Grid.GetFlowDirection (g : Grid) (pos : Position) : Except NavError Direction :=
  if ¬ g.IsValidPosition pos then Except.error NavError.ErrInvalidPosition
  else Except.ok (get2 g.FlowField pos.y pos.x { x := 0, y := 0 })

/-- `FourWayDirections` from types.go. -/
def FourWayDirections : List Direction :=
  [{ x := 0, y := -1 }, { x := 0, y := 1 }, { x := -1, y := 0 }, { x := 1, y := 0 }]

/-- `EightWayDirections` from types.go. -/
def EightWayDirections : List Direction :=
  [{ x := 0, y := -1 }, { x := 0, y := 1 }, { x := -1, y := 0 }, { x := 1, y := 0 },
   { x := -1, y := -1 }, { x := -1, y := 1 }, { x := 1, y := -1 }, { x := 1, y := 1 }]

/-- `Config` from config.go; `DiagonalCost` is the float64 multiplier,
modelled as an exact rational. -/
structure Config where
  GridWidth : Int
  GridHeight : Int
  Directions : List Direction
  DiagonalCost : ℚ
  AllowCornerCutting : Bool
deriving DecidableEq

/-- `EightWayConfig` from config.go; the float64 literal `1.4` is
modelled as the exact rational `7/5` (written in normal form).  On the
cost values evaluated concretely below (cost 1) the exact rational and
the IEEE-754 double produce the same truncated product. -/
def EightWayConfig (width height : Int) : Config :=
  { GridWidth := width
    GridHeight := height
    Directions := EightWayDirections
    DiagonalCost := ⟨7, 5, by decide, by decide⟩
    AllowCornerCutting := true }

/-- `Config.Validate` from config.go. -/
def Config.Validate (c : Config) : Except NavError Unit :=
  if c.GridWidth ≤ 0 ∨ c.GridHeight ≤ 0 then Except.error NavError.ErrMsgConfigDims
  else if c.Directions.length = 0 then Except.error NavError.ErrMsgConfigNoDirections
  else if c.DiagonalCost ≤ 0 then Except.error NavError.ErrMsgConfigDiagonal
  else Except.ok ()

/-- `FlowFieldNavigator` from flowfield.go. -/
structure FlowFieldNavigator where
  config : Config
  grid : Grid
  goal : Position
  isGoalSet : Bool
deriving DecidableEq

/-- `NewFlowFieldNavigator` from flowfield.go; the Go zero value of the
`goal` field is `Position{0, 0}`. -/
def NewFlowFieldNavigator (config : Config) : Except NavError FlowFieldNavigator :=
  match config.Validate with
  | Except.error e => Except.error e
  | Except.ok _ =>
      Except.ok { config := config
                  grid := NewGrid config.GridWidth config.GridHeight
                  goal := { x := 0, y := 0 }
                  isGoalSet := false }

/-- `isDiagonal` from flowfield.go. -/
def isDiagonal (dir : Direction) : Bool :=
  dir.x != 0 && dir.y != 0

/-- The target cell of one step from `p` in direction `dir`. -/
def stepPos (p : Position) (dir : Direction) : Position :=
  { x := p.x + dir.x, y := p.y + dir.y }

/-- The movement cost charged when entering `next` along `dir`
(flowfield.go lines 150-159): the cost of the entered cell; on diagonal
steps Go computes `int(float64(c) * DiagonalCost)`.  With the multiplier
the exact rational `num/den`, that conversion is truncation toward zero
of `c·num/den`, i.e. `Int.tdiv (c * num) den`. -/
def stepCost (cfg : Config) (g : Grid) (next : Position) (dir : Direction) : Int :=
  let moveCost := get2 g.Costs next.y next.x 0
  if isDiagonal dir then
    Int.tdiv (moveCost * cfg.DiagonalCost.num) (cfg.DiagonalCost.den : Int)
  else moveCost

/-- Distance recorded at a cell. -/
def distAt (g : Grid) (p : Position) : Int :=
  get2 g.Distances p.y p.x 0

/-- Flow direction recorded at a cell. -/
def flowAt (g : Grid) (p : Position) : Direction :=
  get2 g.FlowField p.y p.x { x := 0, y := 0 }

/-- Cost recorded at a cell. -/
def costAt (g : Grid) (p : Position) : Int :=
  get2 g.Costs p.y p.x 0

/-- Overwrite one recorded distance. -/
def setDist (g : Grid) (p : Position) (v : Int) : Grid :=
  { g with Distances := set2 g.Distances p.y p.x v }

/-- Go `math.MaxInt32`, the reset value of every distance. -/
def INF : Int := 2147483647

/-- One direction of the inner relaxation loop (flowfield.go lines
140-166), acting on the accumulated grid and list of newly enqueued
cells.  `currentDist` is the distance of the popped cell, read once
before the direction loop just as in the source. -/
def relaxDir (cfg : Config) (current : Position) (currentDist : Int)
    (acc : Grid × List Position) (dir : Direction) : Grid × List Position :=
  let g := acc.1
  let next := stepPos current dir
  if ¬ g.IsValidPosition next ∨ ¬ g.IsPassable next then acc
  else
    let newDist := currentDist + stepCost cfg g next dir
    if newDist < distAt g next then
      (setDist g next newDist, acc.2 ++ [next])
    else acc

/-- Process one popped cell: relax along every configured direction. -/
def relaxStep (cfg : Config) (g : Grid) (current : Position) : Grid × List Position :=
  cfg.Directions.foldl (relaxDir cfg current (distAt g current)) (g, [])

/-- The FIFO relaxation loop (flowfield.go lines 133-167), with fuel:
`none` means the fuel was exhausted while the queue was still non-empty. -/
def relaxLoop (cfg : Config) : Nat → Grid → List Position → Option Grid
  | 0, _, _ => none
  | _ + 1, g, [] => some g
  | n + 1, g, current :: rest =>
      let s := relaxStep cfg g current
      relaxLoop cfg n s.1 (rest ++ s.2)

/-- Phase 2 inner scan (flowfield.go lines 180-193): the best direction
out of a cell, ties broken by declaration order, never re-examined on a
tie. -/
def bestDirAt (cfg : Config) (g : Grid) (p : Position) : Direction :=
  (cfg.Directions.foldl
    (fun (best : Int × Direction) dir =>
      let neighbor := stepPos p dir
      if g.IsValidPosition neighbor then
        let neighborDist := distAt g neighbor
        if neighborDist < best.1 then (neighborDist, dir) else best
      else best)
    (distAt g p, { x := 0, y := 0 })).2

/-- Body of the phase-2 double loop (flowfield.go lines 174-194) for the
cell at row `y`, column `x`: skip obstacles and the goal, otherwise record
the best direction. -/
def phase2Cell (cfg : Config) (goal : Position) (g : Grid) (y x : Nat) : Grid :=
  if ¬ g.IsPassable { x := (x : Int), y := (y : Int) }
      ∨ ((x : Int) = goal.x ∧ (y : Int) = goal.y) then g
  else { g with
    FlowField := set2 g.FlowField (y : Int) (x : Int)
      (bestDirAt cfg g { x := (x : Int), y := (y : Int) }) }

/-- Phase 2 (flowfield.go lines 169-197): record a flow direction for
every passable non-goal cell. -/
def phase2 (cfg : Config) (goal : Position) (g : Grid) : Grid :=
  (List.range g.Height.toNat).foldl
    (fun g y => (List.range g.Width.toNat).foldl (fun g x => phase2Cell cfg goal g y x) g)
    g

/-- The reset at the top of `computeFlowField` (flowfield.go lines
121-127): every distance to `MaxInt32`, every flow direction to `(0,0)`. -/
def resetGrid (g : Grid) : Grid :=
  { g with
    Distances := List.replicate g.Height.toNat (List.replicate g.Width.toNat INF)
    FlowField := List.replicate g.Height.toNat (List.replicate g.Width.toNat { x := 0, y := 0 }) }

/-- `computeFlowField` from flowfield.go (the Go method always returns a
nil error; `none` here only records fuel exhaustion of the modelled
loop). -/
def computeFlowField (fuel : Nat) (f : FlowFieldNavigator) : Option FlowFieldNavigator :=
  let g1 := setDist (resetGrid f.grid) f.goal 0
  match relaxLoop f.config fuel g1 [f.goal] with
  | none => none
  | some g2 => some { f with grid := phase2 f.config f.goal g2 }

/-- `SetGoal` from flowfield.go: the final navigator state paired with
the returned error (`none` error = success). -/
def SetGoal (fuel : Nat) (f : FlowFieldNavigator) (goal : Position) :
    Option (FlowFieldNavigator × Option NavError) :=
  if ¬ f.grid.IsValidPosition goal then some (f, some NavError.ErrInvalidPosition)
  else if ¬ f.grid.IsPassable goal then some (f, some NavError.ErrInvalidGoal)
  else
    (computeFlowField fuel { f with goal := goal, isGoalSet := true }).map (fun n => (n, none))

/-- `GetFlowDirection` (navigator method) from flowfield.go. -/
def FlowFieldNavigator.GetFlowDirection (f : FlowFieldNavigator) (pos : Position) :
    Except NavError Direction :=
  if f.isGoalSet = false then Except.error NavError.ErrInvalidGoal
  else if ¬ f.grid.IsValidPosition pos then Except.error NavError.ErrInvalidPosition
  else if pos.x = f.goal.x ∧ pos.y = f.goal.y then Except.ok { x := 0, y := 0 }
  else
    let direction := flowAt f.grid pos
    if direction.x = 0 ∧ direction.y = 0 ∧ (pos.x ≠ f.goal.x ∨ pos.y ≠ f.goal.y) then
      Except.error NavError.ErrNoPath
    else Except.ok direction

/-- The row-copy loop of `UpdateCosts` (flowfield.go lines 79-84): width
check per row, then `copy`; on a width mismatch the rows already copied
stay copied. -/
def updateCostsLoop (costs : List (List Int)) (width : Int) :
    List Nat → Grid → Grid × Option NavError
  | [], g => (g, none)
  | y :: ys, g =>
      if ((costs.getD y []).length : Int) ≠ width then (g, some NavError.ErrMsgWidthMismatch)
      else updateCostsLoop costs width ys
        { g with Costs := g.Costs.set y (goCopy (g.Costs.getD y []) (costs.getD y [])) }

/-- `UpdateCosts` from flowfield.go: final navigator state paired with
the returned error. -/
def UpdateCosts (fuel : Nat) (f : FlowFieldNavigator) (costs : List (List Int)) :
    Option (FlowFieldNavigator × Option NavError) :=
  if (costs.length : Int) ≠ f.grid.Height then some (f, some NavError.ErrMsgHeightMismatch)
  else
    match updateCostsLoop costs f.grid.Width (List.range f.grid.Height.toNat) f.grid with
    | (g', some e) => some ({ f with grid := g' }, some e)
    | (g', none) =>
        let f' := { f with grid := g' }
        if f'.isGoalSet then
          if ¬ f'.grid.IsPassable f'.goal then
            some ({ f' with isGoalSet := false }, some NavError.ErrInvalidGoal)
          else (computeFlowField fuel f').map (fun n => (n, none))
        else some (f', none)

/-- `GetGoal` from flowfield.go. -/
def GetGoal (f : FlowFieldNavigator) : Position :=
  f.goal

/-- `GetGrid` from flowfield.go: a fresh grid via `NewGrid`, then row-wise
`copy` of costs, flow field and distances (`CellTypes` is not copied). -/
def GetGrid (f : FlowFieldNavigator) : Grid :=
  (List.range f.grid.Height.toNat).foldl
    (fun gc y =>
      { gc with
        Costs := gc.Costs.set y (goCopy (gc.Costs.getD y []) (f.grid.Costs.getD y []))
        FlowField := gc.FlowField.set y (goCopy (gc.FlowField.getD y []) (f.grid.FlowField.getD y []))
        Distances := gc.Distances.set y (goCopy (gc.Distances.getD y []) (f.grid.Distances.getD y [])) })
    (NewGrid f.grid.Width f.grid.Height)

/-! ## Basic predicates on grids -/

/-- Propositional form of `Grid.IsValidPosition`. -/
def validP (g : Grid) (p : Position) : Prop :=
  g.IsValidPosition p = true

/-- Propositional form of `Grid.IsPassable`. -/
def passableP (g : Grid) (p : Position) : Prop :=
  g.IsPassable p = true

/-- Shape of one row-major array of a `width × height` grid. -/
def ArrWF (m : List (List α)) (w h : Int) : Prop :=
  m.length = h.toNat ∧ ∀ r ∈ m, r.length = w.toNat

/-- Shape well-formedness of a grid: every array is `Width × Height`. -/
def GridWF (g : Grid) : Prop :=
  ArrWF g.Costs g.Width g.Height ∧ ArrWF g.FlowField g.Width g.Height ∧
    ArrWF g.Distances g.Width g.Height ∧ ArrWF g.CellTypes g.Width g.Height

/-- The cost model of the spec: every cell is the `-1` sentinel or a
nonnegative cost. -/
def CostsOK (g : Grid) : Prop :=
  ∀ r ∈ g.Costs, ∀ c ∈ r, c = -1 ∨ 0 ≤ c

theorem validP_iff {g : Grid} {p : Position} :
    validP g p ↔ 0 ≤ p.x ∧ p.x < g.Width ∧ 0 ≤ p.y ∧ p.y < g.Height := by
  simp [validP, Grid.IsValidPosition, Bool.and_eq_true, decide_eq_true_eq, and_assoc]

theorem passableP_iff {g : Grid} {p : Position} :
    passableP g p ↔ validP g p ∧ costAt g p ≠ -1 := by
  unfold passableP Grid.IsPassable
  by_cases h : g.IsValidPosition p = true
  · simp [h, validP, costAt, bne_iff_ne]
  · simp only [h, not_false_eq_true, if_pos, validP]
    simp [h]

/-! ## Indexing lemmas -/

theorem getD_set (l : List α) (i j : Nat) (a d : α) :
    (l.set i a).getD j d = if i = j ∧ i < l.length then a else l.getD j d := by
  rw [List.getD_eq_getElem?_getD, List.getD_eq_getElem?_getD, List.getElem?_set]
  by_cases hij : i = j
  · subst hij
    by_cases hi : i < l.length
    · simp [hi]
    · simp [hi, List.getElem?_eq_none (Nat.le_of_not_lt hi)]
  · simp [hij]

theorem getN_setN (m : List (List α)) (y x y' x' : Nat) (v d : α) :
    getN (setN m y x v) y' x' d =
      if y = y' ∧ x = x' ∧ y < m.length ∧ x < (m.getD y []).length then v
      else getN m y' x' d := by
  unfold getN setN
  rw [getD_set]
  by_cases hc : y = y' ∧ y < m.length
  · obtain ⟨hyy, hy⟩ := hc
    subst hyy
    rw [if_pos ⟨rfl, hy⟩, getD_set]
    by_cases hc2 : x = x' ∧ x < (m.getD y []).length
    · rw [if_pos hc2, if_pos ⟨rfl, hc2.1, hy, hc2.2⟩]
    · rw [if_neg hc2, if_neg (fun hfull => hc2 ⟨hfull.2.1, hfull.2.2.2⟩)]
  · rw [if_neg hc, if_neg (fun hfull => hc ⟨hfull.1, hfull.2.2.1⟩)]

theorem length_setN (m : List (List α)) (y x : Nat) (v : α) :
    (setN m y x v).length = m.length :=
  List.length_set ..

theorem arrWF_setN {m : List (List α)} {w h : Int} (hm : ArrWF m w h) (y x : Nat) (v : α) :
    ArrWF (setN m y x v) w h := by
  by_cases hy : y < m.length
  · refine ⟨by rw [length_setN, hm.1], ?_⟩
    intro r hr
    rcases List.mem_or_eq_of_mem_set hr with h1 | h1
    · exact hm.2 r h1
    · subst h1
      rw [List.length_set]
      exact hm.2 _ (List.getD_eq_getElem m [] hy ▸ List.getElem_mem hy)
  · unfold setN
    rw [List.set_eq_of_length_le (by omega)]
    exact hm

theorem row_length {m : List (List α)} {w h : Int} (hm : ArrWF m w h) {y : Nat}
    (hy : y < m.length) : (m.getD y []).length = w.toNat := by
  rw [List.getD_eq_getElem m [] hy]
  exact hm.2 _ (List.getElem_mem hy)

theorem getN_replicate (h w : Nat) (v d : α) (y x : Nat) :
    getN (List.replicate h (List.replicate w v)) y x d = if y < h ∧ x < w then v else d := by
  unfold getN
  by_cases hy : y < h
  · rw [List.getD_eq_getElem (List.replicate h (List.replicate w v)) []
      (by simpa using hy), List.getElem_replicate]
    by_cases hx : x < w
    · rw [List.getD_eq_getElem (List.replicate w v) d (by simpa using hx),
        List.getElem_replicate, if_pos ⟨hy, hx⟩]
    · rw [if_neg (fun hc => hx hc.2), List.getD_eq_getElem?_getD,
        List.getElem?_replicate, if_neg hx]
      rfl
  · have hrow : (List.replicate h (List.replicate w v)).getD y [] = [] := by
      rw [List.getD_eq_getElem?_getD, List.getElem?_replicate, if_neg (by simpa using hy)]
      rfl
    rw [if_neg (fun hc => hy hc.1), hrow, List.getD_nil]

theorem arrWF_replicate (w h : Int) (v : α) :
    ArrWF (List.replicate h.toNat (List.replicate w.toNat v)) w h := by
  constructor
  · exact List.length_replicate ..
  · intro r hr
    rw [List.eq_of_mem_replicate hr]
    exact List.length_replicate ..

theorem gridWF_NewGrid (w h : Int) : GridWF (NewGrid w h) :=
  ⟨arrWF_replicate .., arrWF_replicate .., arrWF_replicate .., arrWF_replicate ..⟩

/-! valid positions have in-range `toNat` coordinates, and distinct valid
positions have distinct coordinates -/

theorem validP.ynat_lt {g : Grid} {p : Position} (h : validP g p) {m : List (List α)}
    {w : Int} (hm : ArrWF m w g.Height) : p.y.toNat < m.length := by
  have h' := validP_iff.mp h
  rw [hm.1]
  omega

theorem validP.xnat_lt {g : Grid} {p : Position} (h : validP g p) {m : List (List α)}
    (hm : ArrWF m g.Width g.Height) {y : Nat} (hy : y < m.length) :
    p.x.toNat < (m.getD y []).length := by
  have h' := validP_iff.mp h
  rw [row_length hm hy]
  omega

theorem eq_of_coords {g : Grid} {p q : Position} (hp : validP g p) (hq : validP g q)
    (hy : p.y.toNat = q.y.toNat) (hx : p.x.toNat = q.x.toNat) : p = q := by
  have hp' := validP_iff.mp hp
  have hq' := validP_iff.mp hq
  obtain ⟨px, py⟩ := p
  obtain ⟨qx, qy⟩ := q
  simp only [Position.mk.injEq]
  simp only at hp' hq' hy hx
  omega

/-! frame facts about `setDist`: it only changes `Distances` -/

@[simp]
theorem setDist_Width (g : Grid) (p : Position) (v : Int) : (setDist g p v).Width = g.Width := rfl

@[simp]
theorem setDist_Height (g : Grid) (p : Position) (v : Int) : (setDist g p v).Height = g.Height := rfl

@[simp]
theorem setDist_Costs (g : Grid) (p : Position) (v : Int) : (setDist g p v).Costs = g.Costs := rfl

@[simp]
theorem setDist_FlowField (g : Grid) (p : Position) (v : Int) :
    (setDist g p v).FlowField = g.FlowField := rfl

@[simp]
theorem setDist_CellTypes (g : Grid) (p : Position) (v : Int) :
    (setDist g p v).CellTypes = g.CellTypes := rfl

theorem validP_setDist {g : Grid} {p q : Position} {v : Int} :
    validP (setDist g q v) p ↔ validP g p := Iff.rfl

theorem passableP_setDist {g : Grid} {p q : Position} {v : Int} :
    passableP (setDist g q v) p ↔ passableP g p := Iff.rfl

theorem costAt_setDist (g : Grid) (p q : Position) (v : Int) :
    costAt (setDist g q v) p = costAt g p := rfl

theorem stepCost_setDist (cfg : Config) (g : Grid) (q next : Position) (dir : Direction)
    (v : Int) : stepCost cfg (setDist g q v) next dir = stepCost cfg g next dir := rfl

theorem gridWF_setDist {g : Grid} (hwf : GridWF g) (p : Position) (v : Int) :
    GridWF (setDist g p v) :=
  ⟨hwf.1, hwf.2.1, arrWF_setN hwf.2.2.1 .., hwf.2.2.2⟩

theorem distAt_setDist {g : Grid} (hwf : ArrWF g.Distances g.Width g.Height)
    {q : Position} (hq : validP g q) {p : Position} (hp : validP g p) (v : Int) :
    distAt (setDist g q v) p = if q = p then v else distAt g p := by
  unfold distAt setDist get2 set2
  show getN (setN g.Distances q.y.toNat q.x.toNat v) p.y.toNat p.x.toNat 0 = _
  rw [getN_setN]
  by_cases hqp : q = p
  · subst hqp
    rw [if_pos ⟨rfl, rfl, hq.ynat_lt hwf, hq.xnat_lt hwf (hq.ynat_lt hwf)⟩, if_pos rfl]
  · rw [if_neg, if_neg hqp]
    intro hfull
    exact hqp (eq_of_coords hq hp hfull.1 hfull.2.1)

theorem distAt_setDist_self {g : Grid} (hwf : ArrWF g.Distances g.Width g.Height)
    {q : Position} (hq : validP g q) (v : Int) : distAt (setDist g q v) q = v := by
  rw [distAt_setDist hwf hq hq, if_pos rfl]

theorem distAt_setDist_ne {g : Grid} (hwf : ArrWF g.Distances g.Width g.Height)
    {q : Position} (hq : validP g q) {p : Position} (hp : validP g p) (hne : q ≠ p) (v : Int) :
    distAt (setDist g q v) p = distAt g p := by
  rw [distAt_setDist hwf hq hp, if_neg hne]

/-! ## Truncation and step-cost facts -/

theorem tdiv_le_tdiv_of_le {a b den : Int} (ha : 0 ≤ a) (hab : a ≤ b) (hden : 0 < den) :
    Int.tdiv a den ≤ Int.tdiv b den := by
  rw [Int.tdiv_eq_ediv ha (le_of_lt hden), Int.tdiv_eq_ediv (le_trans ha hab) (le_of_lt hden)]
  exact Int.ediv_le_ediv hden hab

theorem costAt_of_ok {g : Grid} (hok : CostsOK g) (hwfc : ArrWF g.Costs g.Width g.Height)
    {p : Position} (hp : validP g p) : costAt g p = -1 ∨ 0 ≤ costAt g p := by
  unfold costAt get2 getN
  have hy : p.y.toNat < g.Costs.length := hp.ynat_lt hwfc
  have hx : p.x.toNat < (g.Costs.getD p.y.toNat []).length := hp.xnat_lt hwfc hy
  have hmem1 : g.Costs.getD p.y.toNat [] ∈ g.Costs := by
    rw [List.getD_eq_getElem _ _ hy]
    exact List.getElem_mem hy
  have hmem2 : (g.Costs.getD p.y.toNat []).getD p.x.toNat 0 ∈ g.Costs.getD p.y.toNat [] := by
    rw [List.getD_eq_getElem _ _ hx]
    exact List.getElem_mem hx
  exact hok _ hmem1 _ hmem2

theorem costAt_nonneg_of_passable {g : Grid} (hok : CostsOK g)
    (hwfc : ArrWF g.Costs g.Width g.Height) {p : Position} (hp : passableP g p) :
    0 ≤ costAt g p := by
  have hv := (passableP_iff.mp hp).1
  have hne := (passableP_iff.mp hp).2
  rcases costAt_of_ok hok hwfc hv with h | h
  · exact absurd h hne
  · exact h

theorem stepCost_nonneg {cfg : Config} {g : Grid} (hok : CostsOK g)
    (hwfc : ArrWF g.Costs g.Width g.Height) (hdg : 0 ≤ cfg.DiagonalCost)
    {next : Position} (hp : passableP g next) (dir : Direction) :
    0 ≤ stepCost cfg g next dir := by
  have hc : 0 ≤ costAt g next := costAt_nonneg_of_passable hok hwfc hp
  unfold stepCost
  by_cases hd : isDiagonal dir = true
  · rw [if_pos hd]
    exact Int.tdiv_nonneg (mul_nonneg hc (Rat.num_nonneg.mpr hdg))
      (by exact_mod_cast Nat.zero_le _)
  · rw [if_neg hd]
    exact hc

/-! ## Tense edges and realizable distances -/

/-- An edge of the relaxation graph that could still be improved: relaxing
from `u` along `dir` would strictly lower the target distance. -/
def Tense (cfg : Config) (g : Grid) (u : Position) (dir : Direction) : Prop :=
  dir ∈ cfg.Directions ∧ validP g u ∧ validP g (stepPos u dir) ∧
    passableP g (stepPos u dir) ∧
    distAt g u + stepCost cfg g (stepPos u dir) dir < distAt g (stepPos u dir)

/-- Distances realized by actual valid walks out of the goal, stepping only
through passable in-bounds cells along configured directions, accumulating
exactly the cost the relaxation loop charges. -/
inductive ReachDist (cfg : Config) (g : Grid) (goal : Position) : Position → Int → Prop where
  | base : ReachDist cfg g goal goal 0
  | step {u : Position} {d : Int} (dir : Direction) (hu : ReachDist cfg g goal u d)
      (hdir : dir ∈ cfg.Directions) (hv : validP g (stepPos u dir))
      (hp : passableP g (stepPos u dir)) :
      ReachDist cfg g goal (stepPos u dir) (d + stepCost cfg g (stepPos u dir) dir)

theorem validP_congr {g g' : Grid} (hW : g'.Width = g.Width) (hH : g'.Height = g.Height)
    {p : Position} : validP g' p ↔ validP g p := by
  rw [validP_iff, validP_iff, hW, hH]

theorem passableP_congr {g g' : Grid} (hW : g'.Width = g.Width) (hH : g'.Height = g.Height)
    (hC : g'.Costs = g.Costs) {p : Position} : passableP g' p ↔ passableP g p := by
  rw [passableP_iff, passableP_iff, validP_congr hW hH]
  unfold costAt get2
  rw [hC]

theorem stepCost_congr {cfg : Config} {g g' : Grid} (hC : g'.Costs = g.Costs)
    (next : Position) (dir : Direction) : stepCost cfg g' next dir = stepCost cfg g next dir := by
  unfold stepCost get2
  rw [hC]

theorem reachDist_congr {cfg : Config} {g g' : Grid} (hW : g'.Width = g.Width)
    (hH : g'.Height = g.Height) (hC : g'.Costs = g.Costs) {goal : Position} {p : Position}
    {d : Int} (h : ReachDist cfg g goal p d) : ReachDist cfg g' goal p d := by
  induction h with
  | base => exact ReachDist.base
  | step dir hu hdir hv hp ih =>
      rw [← @stepCost_congr cfg g g' hC]
      exact ReachDist.step dir ih hdir ((validP_congr hW hH).mpr hv)
        ((passableP_congr hW hH hC).mpr hp)

theorem reachDist_setDist {cfg : Config} {g : Grid} {goal p q : Position} {d v : Int}
    (h : ReachDist cfg g goal p d) : ReachDist cfg (setDist g q v) goal p d :=
  @reachDist_congr cfg g (setDist g q v) rfl rfl rfl goal p d h

theorem reachDist_valid {cfg : Config} {g : Grid} {goal p : Position} {d : Int}
    (h : ReachDist cfg g goal p d) (hgv : validP g goal) : validP g p := by
  induction h with
  | base => exact hgv
  | step dir hu hdir hv hp ih => exact hv

/-- With no tense edge left, every realizable distance bounds the recorded
distance from above (the recorded field is a fixpoint of relaxation). -/
theorem dist_le_reachDist {cfg : Config} {g : Grid} {goal : Position}
    (hnt : ∀ u dir, ¬ Tense cfg g u dir) (hz : distAt g goal = 0)
    (hgv : validP g goal) {p : Position} {d : Int}
    (h : ReachDist cfg g goal p d) : distAt g p ≤ d := by
  induction h with
  | base => exact le_of_eq hz
  | @step u d0 dir hu hdir hv hp ih =>
      have hval : validP g u := reachDist_valid hu hgv
      have hnotense := hnt u dir
      unfold Tense at hnotense
      push_neg at hnotense
      have := hnotense hdir hval hv hp
      omega

/-! ## The sum-of-distances measure -/

/-- Sum of the clamped distances of one row. -/
def rowSumNat (l : List Int) : Nat := (l.map Int.toNat).sum

/-- Sum of all clamped recorded distances; the termination measure of the
relaxation loop decreases with every enqueue. -/
def sumDist (g : Grid) : Nat := (g.Distances.map rowSumNat).sum

theorem sum_set_nat (l : List Nat) (i a : Nat) (h : i < l.length) :
    (l.set i a).sum + l.getD i 0 = l.sum + a := by
  induction l generalizing i with
  | nil => exact absurd h (by simp)
  | cons x xs ih =>
      cases i with
      | zero => simp [List.set]; omega
      | succ j =>
          have h' : j < xs.length := by simpa using h
          have := ih j h'
          simp only [List.set, List.sum_cons, List.getD_cons_succ]
          omega

theorem rowSumNat_set (l : List Int) (x : Nat) (v : Int) (hx : x < l.length) :
    rowSumNat (l.set x v) + (l.getD x 0).toNat = rowSumNat l + v.toNat := by
  unfold rowSumNat
  rw [List.map_set]
  have hx' : x < (l.map Int.toNat).length := by simpa using hx
  have h1 := sum_set_nat (l.map Int.toNat) x v.toNat hx'
  have hg : (l.map Int.toNat).getD x 0 = (l.getD x 0).toNat := by
    rw [List.getD_eq_getElem _ _ hx', List.getElem_map, List.getD_eq_getElem _ _ hx]
  rw [hg] at h1
  exact h1

theorem sumDist_setDist {g : Grid} (hwf : ArrWF g.Distances g.Width g.Height)
    {p : Position} (hp : validP g p) (v : Int) :
    sumDist (setDist g p v) + (distAt g p).toNat = sumDist g + v.toNat := by
  have hy : p.y.toNat < g.Distances.length := hp.ynat_lt hwf
  have hy' : p.y.toNat < (g.Distances.map rowSumNat).length := by simpa using hy
  have hx : p.x.toNat < (g.Distances.getD p.y.toNat []).length := hp.xnat_lt hwf hy
  show ((setN g.Distances p.y.toNat p.x.toNat v).map rowSumNat).sum
      + ((g.Distances.getD p.y.toNat []).getD p.x.toNat 0).toNat
      = (g.Distances.map rowSumNat).sum + v.toNat
  unfold setN
  rw [List.map_set]
  have h1 := sum_set_nat (g.Distances.map rowSumNat) p.y.toNat
    (rowSumNat ((g.Distances.getD p.y.toNat []).set p.x.toNat v)) hy'
  have hget : (g.Distances.map rowSumNat).getD p.y.toNat 0
      = rowSumNat (g.Distances.getD p.y.toNat []) := by
    rw [List.getD_eq_getElem _ _ hy', List.getElem_map, List.getD_eq_getElem _ _ hy]
  rw [hget] at h1
  have h2 := rowSumNat_set (g.Distances.getD p.y.toNat []) p.x.toNat v hx
  omega

/-! ## Case analysis of one relaxation step along one direction -/

theorem relaxDir_cases (cfg : Config) (current : Position) (cd : Int) (g : Grid)
    (added : List Position) (dir : Direction) :
    ((¬ validP g (stepPos current dir) ∨ ¬ passableP g (stepPos current dir) ∨
        distAt g (stepPos current dir) ≤ cd + stepCost cfg g (stepPos current dir) dir) ∧
      relaxDir cfg current cd (g, added) dir = (g, added)) ∨
    (validP g (stepPos current dir) ∧ passableP g (stepPos current dir) ∧
      cd + stepCost cfg g (stepPos current dir) dir < distAt g (stepPos current dir) ∧
      relaxDir cfg current cd (g, added) dir =
        (setDist g (stepPos current dir) (cd + stepCost cfg g (stepPos current dir) dir),
          added ++ [stepPos current dir])) := by
  unfold relaxDir
  by_cases h1 : ¬ (g.IsValidPosition (stepPos current dir) = true)
      ∨ ¬ (g.IsPassable (stepPos current dir) = true)
  · left
    refine ⟨?_, by simp only [if_pos h1]⟩
    rcases h1 with h | h
    · exact Or.inl h
    · exact Or.inr (Or.inl h)
  · rw [if_neg h1]
    push_neg at h1
    by_cases h2 : cd + stepCost cfg g (stepPos current dir) dir
        < distAt g (stepPos current dir)
    · right
      exact ⟨h1.1, h1.2, h2, by rw [if_pos h2]⟩
    · left
      exact ⟨Or.inr (Or.inr (le_of_not_lt h2)), by rw [if_neg h2]⟩

/-- The parts of a grid the relaxation loop never changes. -/
def SameStatic (g g' : Grid) : Prop :=
  g'.Width = g.Width ∧ g'.Height = g.Height ∧ g'.Costs = g.Costs ∧
    g'.FlowField = g.FlowField ∧ g'.CellTypes = g.CellTypes

theorem sameStatic_refl (g : Grid) : SameStatic g g :=
  ⟨rfl, rfl, rfl, rfl, rfl⟩

theorem sameStatic_trans {g1 g2 g3 : Grid} (h12 : SameStatic g1 g2)
    (h23 : SameStatic g2 g3) : SameStatic g1 g3 :=
  ⟨h23.1.trans h12.1, h23.2.1.trans h12.2.1, h23.2.2.1.trans h12.2.2.1,
    h23.2.2.2.1.trans h12.2.2.2.1, h23.2.2.2.2.trans h12.2.2.2.2⟩

theorem sameStatic_setDist (g : Grid) (p : Position) (v : Int) :
    SameStatic g (setDist g p v) :=
  ⟨rfl, rfl, rfl, rfl, rfl⟩

/-- Invariant carried through the inner direction loop while one popped
cell `current` (with hoisted distance `cd`) is processed.  `S` abstracts
membership in the remainder of the FIFO queue; `dirs` is the suffix of
directions not yet processed; `added` the cells enqueued so far. -/
structure FoldInv (cfg : Config) (goal current : Position) (cd : Int)
    (S : Position → Prop) (dirs : List Direction) (g : Grid)
    (added : List Position) : Prop where
  wf : GridWF g
  ok : CostsOK g
  nonneg : ∀ p, validP g p → 0 ≤ distAt g p
  leInf : ∀ p, validP g p → distAt g p ≤ INF
  goalValid : validP g goal
  goalZero : distAt g goal = 0
  curValid : validP g current
  curDist : distAt g current = cd
  curReach : ReachDist cfg g goal current cd ∨ cd = INF
  impass : ∀ p, validP g p → ¬ passableP g p → distAt g p = INF
  reach : ∀ p, validP g p → ReachDist cfg g goal p (distAt g p) ∨ distAt g p = INF
  tense : ∀ u d, Tense cfg g u d → S u ∨ u ∈ added ∨ (u = current ∧ d ∈ dirs)
  addedValid : ∀ p ∈ added, validP g p ∧ passableP g p

theorem foldInv_step {cfg : Config} {goal current : Position} {cd : Int}
    {S : Position → Prop} (hdg : 0 ≤ cfg.DiagonalCost) {dir : Direction}
    {dirs : List Direction} {g : Grid} {added : List Position}
    (h : FoldInv cfg goal current cd S (dir :: dirs) g added)
    (hdirmem : dir ∈ cfg.Directions) :
    FoldInv cfg goal current cd S dirs (relaxDir cfg current cd (g, added) dir).1
        (relaxDir cfg current cd (g, added) dir).2 ∧
    SameStatic g (relaxDir cfg current cd (g, added) dir).1 ∧
    sumDist (relaxDir cfg current cd (g, added) dir).1 +
        (relaxDir cfg current cd (g, added) dir).2.length ≤ sumDist g + added.length := by
  rcases relaxDir_cases cfg current cd g added dir with ⟨hreason, heq⟩ | ⟨hv, hp, hlt, heq⟩
  · have heq1 : (relaxDir cfg current cd (g, added) dir).1 = g := by rw [heq]
    have heq2 : (relaxDir cfg current cd (g, added) dir).2 = added := by rw [heq]
    rw [heq1, heq2]
    refine ⟨?_, sameStatic_refl g, le_refl _⟩
    refine { h with tense := ?_ }
    intro u d hT
    rcases h.tense u d hT with hS | hA | ⟨hu, hd⟩
    · exact Or.inl hS
    · exact Or.inr (Or.inl hA)
    · rcases List.mem_cons.mp hd with hdd | hdd
      · exfalso
        subst hu
        subst hdd
        obtain ⟨_, hcu, hcv, hcp, hclt⟩ := hT
        rw [h.curDist] at hclt
        rcases hreason with hr | hr | hr
        · exact hr hcv
        · exact hr hcp
        · omega
      · exact Or.inr (Or.inr ⟨hu, hdd⟩)
  · have hD : ArrWF g.Distances g.Width g.Height := h.wf.2.2.1
    have hsc : 0 ≤ stepCost cfg g (stepPos current dir) dir :=
      stepCost_nonneg h.ok h.wf.1 hdg hp dir
    have hcd0 : 0 ≤ cd := h.curDist ▸ h.nonneg current h.curValid
    have hnd0 : 0 ≤ cd + stepCost cfg g (stepPos current dir) dir := by omega
    have heq1 : (relaxDir cfg current cd (g, added) dir).1
        = setDist g (stepPos current dir) (cd + stepCost cfg g (stepPos current dir) dir) := by
      rw [heq]
    have heq2 : (relaxDir cfg current cd (g, added) dir).2
        = added ++ [stepPos current dir] := by
      rw [heq]
    rw [heq1, heq2]
    have hwfset := gridWF_setDist h.wf (stepPos current dir)
      (cd + stepCost cfg g (stepPos current dir) dir)
    refine ⟨?_, sameStatic_setDist g (stepPos current dir)
      (cd + stepCost cfg g (stepPos current dir) dir), ?_⟩
    · refine ⟨hwfset, h.ok, ?nonneg, ?leInf, ?goalValid, ?goalZero, ?curValid,
        ?curDist, ?curReach, ?impass, ?reach, ?tense, ?addedValid⟩
      case nonneg =>
        intro p hpv
        rw [distAt_setDist hD hv hpv]
        by_cases hq : stepPos current dir = p
        · rw [if_pos hq]
          exact hnd0
        · rw [if_neg hq]
          exact h.nonneg p hpv
      case leInf =>
        intro p hpv
        rw [distAt_setDist hD hv hpv]
        by_cases hq : stepPos current dir = p
        · rw [if_pos hq]
          have := h.leInf _ hv
          omega
        · rw [if_neg hq]
          exact h.leInf p hpv
      case goalValid => exact h.goalValid
      case goalZero =>
        rw [distAt_setDist hD hv h.goalValid]
        by_cases hq : stepPos current dir = goal
        · exfalso
          rw [hq] at hlt hsc
          rw [h.goalZero] at hlt
          omega
        · rw [if_neg hq]
          exact h.goalZero
      case curValid => exact h.curValid
      case curDist =>
        rw [distAt_setDist hD hv h.curValid]
        by_cases hq : stepPos current dir = current
        · exfalso
          rw [hq] at hlt hsc
          rw [h.curDist] at hlt
          omega
        · rw [if_neg hq]
          exact h.curDist
      case curReach =>
        rcases h.curReach with hr | hr
        · exact Or.inl (reachDist_setDist hr)
        · exact Or.inr hr
      case impass =>
        intro p hpv hpnp
        have hne : stepPos current dir ≠ p := fun hq => hpnp (hq ▸ hp)
        rw [distAt_setDist hD hv hpv, if_neg hne]
        exact h.impass p hpv hpnp
      case reach =>
        intro p hpv
        rw [distAt_setDist hD hv hpv]
        by_cases hq : stepPos current dir = p
        · rw [if_pos hq]
          left
          rcases h.curReach with hr | hr
          · have hstep : ReachDist cfg g goal (stepPos current dir)
                (cd + stepCost cfg g (stepPos current dir) dir) :=
              ReachDist.step dir hr hdirmem hv hp
            rw [← hq]
            exact reachDist_setDist hstep
          · exfalso
            have hle := h.leInf _ hv
            rw [hr] at hlt
            omega
        · rw [if_neg hq]
          rcases h.reach p hpv with hr | hr
          · exact Or.inl (reachDist_setDist hr)
          · exact Or.inr hr
      case tense =>
        intro u d hT
        obtain ⟨hd1, hu', hv', hp', hlt'⟩ := hT
        by_cases hun : u = stepPos current dir
        · refine Or.inr (Or.inl ?_)
          rw [hun]
          exact List.mem_append_right _ (by simp)
        · have hdu : distAt (setDist g (stepPos current dir)
              (cd + stepCost cfg g (stepPos current dir) dir)) u = distAt g u := by
            rw [distAt_setDist hD hv hu', if_neg (fun hq => hun hq.symm)]
          by_cases htn : stepPos u d = stepPos current dir
          · have hdt : distAt (setDist g (stepPos current dir)
                (cd + stepCost cfg g (stepPos current dir) dir)) (stepPos u d)
                = cd + stepCost cfg g (stepPos current dir) dir := by
              rw [htn]
              exact distAt_setDist_self hD hv _
            have hTg : Tense cfg g u d := by
              refine ⟨hd1, hu', hv', hp', ?_⟩
              rw [hdu, hdt] at hlt'
              have hsc2 : stepCost cfg (setDist g (stepPos current dir)
                  (cd + stepCost cfg g (stepPos current dir) dir)) (stepPos u d) d
                  = stepCost cfg g (stepPos u d) d := rfl
              rw [hsc2, htn] at hlt'
              rw [htn]
              omega
            rcases h.tense u d hTg with hS | hA | ⟨huc, hdd⟩
            · exact Or.inl hS
            · exact Or.inr (Or.inl (List.mem_append_left _ hA))
            · rcases List.mem_cons.mp hdd with hde | hde
              · exfalso
                rw [hdu, hdt] at hlt'
                have hsc2 : stepCost cfg (setDist g (stepPos current dir)
                    (cd + stepCost cfg g (stepPos current dir) dir)) (stepPos u d) d
                    = stepCost cfg g (stepPos u d) d := rfl
                rw [hsc2, htn, huc, hde, h.curDist] at hlt'
                omega
              · exact Or.inr (Or.inr ⟨huc, hde⟩)
          · have hdt : distAt (setDist g (stepPos current dir)
                (cd + stepCost cfg g (stepPos current dir) dir)) (stepPos u d)
                = distAt g (stepPos u d) := by
              rw [distAt_setDist hD hv hv', if_neg (fun hq => htn hq.symm)]
            have hTg : Tense cfg g u d := by
              refine ⟨hd1, hu', hv', hp', ?_⟩
              have hsc2 : stepCost cfg (setDist g (stepPos current dir)
                  (cd + stepCost cfg g (stepPos current dir) dir)) (stepPos u d) d
                  = stepCost cfg g (stepPos u d) d := rfl
              rw [hdu, hdt, hsc2] at hlt'
              exact hlt'
            rcases h.tense u d hTg with hS | hA | ⟨huc, hdd⟩
            · exact Or.inl hS
            · exact Or.inr (Or.inl (List.mem_append_left _ hA))
            · rcases List.mem_cons.mp hdd with hde | hde
              · exfalso
                apply htn
                rw [huc, hde]
              · exact Or.inr (Or.inr ⟨huc, hde⟩)
      case addedValid =>
        intro p hpmem
        rcases List.mem_append.mp hpmem with hA | hB
        · exact h.addedValid p hA
        · have hpn : p = stepPos current dir := by simpa using hB
          rw [hpn]
          exact ⟨hv, hp⟩
    · have hsum := sumDist_setDist hD hv (cd + stepCost cfg g (stepPos current dir) dir)
      rw [List.length_append]
      simp only [List.length_cons, List.length_nil]
      omega

theorem foldRelax {cfg : Config} {goal current : Position} {cd : Int} {S : Position → Prop}
    (hdg : 0 ≤ cfg.DiagonalCost) :
    ∀ (dirs : List Direction) (g : Grid) (added : List Position),
      FoldInv cfg goal current cd S dirs g added →
      (∀ d ∈ dirs, d ∈ cfg.Directions) →
      FoldInv cfg goal current cd S []
          (List.foldl (relaxDir cfg current cd) (g, added) dirs).1
          (List.foldl (relaxDir cfg current cd) (g, added) dirs).2 ∧
      SameStatic g (List.foldl (relaxDir cfg current cd) (g, added) dirs).1 ∧
      sumDist (List.foldl (relaxDir cfg current cd) (g, added) dirs).1 +
          (List.foldl (relaxDir cfg current cd) (g, added) dirs).2.length
        ≤ sumDist g + added.length := by
  intro dirs
  induction dirs with
  | nil =>
      intro g added h _
      exact ⟨h, sameStatic_refl g, le_refl _⟩
  | cons dir dirs ih =>
      intro g added h hmem
      obtain ⟨h1, h2, h3⟩ := foldInv_step hdg h (hmem dir (List.mem_cons_self dir dirs))
      obtain ⟨ha, hb, hc⟩ := ih (relaxDir cfg current cd (g, added) dir).1
        (relaxDir cfg current cd (g, added) dir).2 h1
        (fun d hd => hmem d (List.mem_cons_of_mem _ hd))
      exact ⟨ha, sameStatic_trans h2 hb, le_trans hc h3⟩

/-- Invariant of the FIFO relaxation loop: shape, cost model, distance
bounds, goal pinned at 0, unreachability of blocked cells, realizability
of every finite recorded distance, and the key property that the source
of every tense edge is still queued. -/
structure RelaxInv (cfg : Config) (goal : Position) (g : Grid) (q : List Position) : Prop where
  wf : GridWF g
  ok : CostsOK g
  nonneg : ∀ p, validP g p → 0 ≤ distAt g p
  leInf : ∀ p, validP g p → distAt g p ≤ INF
  goalValid : validP g goal
  goalZero : distAt g goal = 0
  impass : ∀ p, validP g p → ¬ passableP g p → distAt g p = INF
  reach : ∀ p, validP g p → ReachDist cfg g goal p (distAt g p) ∨ distAt g p = INF
  tense : ∀ u d, Tense cfg g u d → u ∈ q
  qvalid : ∀ p ∈ q, validP g p ∧ passableP g p

theorem relaxStep_inv {cfg : Config} {goal : Position} (hdg : 0 ≤ cfg.DiagonalCost)
    {g : Grid} {current : Position} {rest : List Position}
    (h : RelaxInv cfg goal g (current :: rest)) :
    RelaxInv cfg goal (relaxStep cfg g current).1 (rest ++ (relaxStep cfg g current).2) ∧
    SameStatic g (relaxStep cfg g current).1 ∧
    sumDist (relaxStep cfg g current).1 + (relaxStep cfg g current).2.length ≤ sumDist g := by
  have hcur := h.qvalid current (List.mem_cons_self current rest)
  have htense0 : ∀ u d, Tense cfg g u d →
      (fun p => p ∈ rest) u ∨ u ∈ ([] : List Position) ∨ (u = current ∧ d ∈ cfg.Directions) := by
    intro u d hT
    rcases List.mem_cons.mp (h.tense u d hT) with hu | hu
    · exact Or.inr (Or.inr ⟨hu, hT.1⟩)
    · exact Or.inl hu
  have hadded0 : ∀ p ∈ ([] : List Position), validP g p ∧ passableP g p := by
    intro p hp
    exact absurd hp (List.not_mem_nil p)
  have hfold0 : FoldInv cfg goal current (distAt g current) (fun p => p ∈ rest)
      cfg.Directions g [] :=
    ⟨h.wf, h.ok, h.nonneg, h.leInf, h.goalValid, h.goalZero, hcur.1, rfl,
      h.reach current hcur.1, h.impass, h.reach, htense0, hadded0⟩
  obtain ⟨h1, h2, h3⟩ := foldRelax hdg cfg.Directions g [] hfold0 (fun d hd => hd)
  unfold relaxStep
  refine ⟨?_, h2, by simpa using h3⟩
  refine ⟨h1.wf, h1.ok, h1.nonneg, h1.leInf, h1.goalValid, h1.goalZero, h1.impass,
    h1.reach, ?_, ?_⟩
  · intro u d hT
    rcases h1.tense u d hT with hS | hA | ⟨_, hd⟩
    · exact List.mem_append_left _ hS
    · exact List.mem_append_right _ hA
    · exact absurd hd (List.not_mem_nil d)
  · intro p hp
    rcases List.mem_append.mp hp with hA | hB
    · have hold := h.qvalid p (List.mem_cons_of_mem _ hA)
      exact ⟨(validP_congr h2.1 h2.2.1).mpr hold.1,
        (passableP_congr h2.1 h2.2.1 h2.2.2.1).mpr hold.2⟩
    · exact h1.addedValid p hB

theorem relaxLoop_inv {cfg : Config} {goal : Position} (hdg : 0 ≤ cfg.DiagonalCost) :
    ∀ (fuel : Nat) (g : Grid) (q : List Position) (g' : Grid),
      relaxLoop cfg fuel g q = some g' → RelaxInv cfg goal g q →
      RelaxInv cfg goal g' [] ∧ SameStatic g g' := by
  intro fuel
  induction fuel with
  | zero =>
      intro g q g' hrun
      exact absurd hrun (by simp [relaxLoop])
  | succ n ih =>
      intro g q g' hrun hinv
      cases q with
      | nil =>
          have hgg : g = g' := by simpa [relaxLoop] using hrun
          subst hgg
          exact ⟨hinv, sameStatic_refl g⟩
      | cons current rest =>
          have hstep := relaxStep_inv hdg hinv
          have hrun' : relaxLoop cfg n (relaxStep cfg g current).1
              (rest ++ (relaxStep cfg g current).2) = some g' := by
            simpa [relaxLoop] using hrun
          obtain ⟨ha, hb⟩ := ih _ _ _ hrun' hstep.1
          exact ⟨ha, sameStatic_trans hstep.2.1 hb⟩

theorem relaxLoop_total {cfg : Config} {goal : Position} (hdg : 0 ≤ cfg.DiagonalCost) :
    ∀ (fuel : Nat) (g : Grid) (q : List Position),
      RelaxInv cfg goal g q → sumDist g + q.length < fuel →
      ∃ g', relaxLoop cfg fuel g q = some g' := by
  intro fuel
  induction fuel with
  | zero =>
      intro g q _ hm
      omega
  | succ n ih =>
      intro g q hinv hm
      cases q with
      | nil => exact ⟨g, by simp [relaxLoop]⟩
      | cons current rest =>
          have hstep := relaxStep_inv hdg hinv
          have hm' : sumDist (relaxStep cfg g current).1
              + (rest ++ (relaxStep cfg g current).2).length < n := by
            rw [List.length_append]
            have hms := hstep.2.2
            simp only [List.length_cons] at hm
            omega
          obtain ⟨g', hg'⟩ := ih _ _ hstep.1 hm'
          exact ⟨g', by simpa [relaxLoop] using hg'⟩

theorem relaxLoop_mono {cfg : Config} :
    ∀ {n m : Nat}, n ≤ m → ∀ {g : Grid} {q : List Position} {g' : Grid},
      relaxLoop cfg n g q = some g' → relaxLoop cfg m g q = some g' := by
  intro n
  induction n with
  | zero =>
      intro m _ g q g' h
      exact absurd h (by simp [relaxLoop])
  | succ k ih =>
      intro m hm g q g' h
      cases m with
      | zero => omega
      | succ m' =>
          cases q with
          | nil => simpa [relaxLoop] using h
          | cons c rest =>
              have h' : relaxLoop cfg k (relaxStep cfg g c).1
                  (rest ++ (relaxStep cfg g c).2) = some g' := by
                simpa [relaxLoop] using h
              have := ih (Nat.le_of_succ_le_succ hm) h'
              simpa [relaxLoop] using this

/-! ## Properties of the best-direction scan -/

theorem bestDirAt_spec (cfg : Config) (g : Grid) (p : Position) :
    bestDirAt cfg g p = { x := 0, y := 0 } ∨
    (validP g (stepPos p (bestDirAt cfg g p)) ∧
      distAt g (stepPos p (bestDirAt cfg g p)) < distAt g p) := by
  unfold bestDirAt
  suffices h : ∀ (dirs : List Direction) (acc : Int × Direction),
      ((acc.2 = { x := 0, y := 0 } ∧ acc.1 = distAt g p) ∨
        (validP g (stepPos p acc.2) ∧ distAt g (stepPos p acc.2) = acc.1 ∧ acc.1 < distAt g p)) →
      let r := dirs.foldl
        (fun (best : Int × Direction) dir =>
          let neighbor := stepPos p dir
          if g.IsValidPosition neighbor then
            let neighborDist := distAt g neighbor
            if neighborDist < best.1 then (neighborDist, dir) else best
          else best) acc
      ((r.2 = { x := 0, y := 0 } ∧ r.1 = distAt g p) ∨
        (validP g (stepPos p r.2) ∧ distAt g (stepPos p r.2) = r.1 ∧ r.1 < distAt g p)) by
    rcases h cfg.Directions (distAt g p, { x := 0, y := 0 }) (Or.inl ⟨rfl, rfl⟩) with
      ⟨h1, _⟩ | ⟨h1, h2, h3⟩
    · exact Or.inl h1
    · exact Or.inr ⟨h1, by omega⟩
  intro dirs
  induction dirs with
  | nil => intro acc h; exact h
  | cons dir dirs ih =>
      intro acc h
      simp only [List.foldl_cons]
      apply ih
      by_cases hv : g.IsValidPosition (stepPos p dir) = true
      · simp only [hv, if_pos]
        by_cases hlt : distAt g (stepPos p dir) < acc.1
        · rw [if_pos hlt]
          rcases h with ⟨_, h2⟩ | ⟨_, h2, h3⟩
          · exact Or.inr ⟨hv, rfl, by omega⟩
          · exact Or.inr ⟨hv, rfl, by omega⟩
        · rw [if_neg hlt]
          exact h
      · simp only [hv]
        simp only [if_neg, Bool.false_eq_true, if_false]
        exact h

theorem bestDirAt_eq_zero {cfg : Config} {g : Grid} {p : Position}
    (hsmall : ∀ dir ∈ cfg.Directions, validP g (stepPos p dir) →
      distAt g p ≤ distAt g (stepPos p dir)) :
    bestDirAt cfg g p = { x := 0, y := 0 } := by
  unfold bestDirAt
  suffices h : ∀ (dirs : List Direction), (∀ dir ∈ dirs, dir ∈ cfg.Directions) →
      dirs.foldl
        (fun (best : Int × Direction) dir =>
          let neighbor := stepPos p dir
          if g.IsValidPosition neighbor then
            let neighborDist := distAt g neighbor
            if neighborDist < best.1 then (neighborDist, dir) else best
          else best) (distAt g p, { x := 0, y := 0 })
      = (distAt g p, { x := 0, y := 0 }) by
    rw [h cfg.Directions (fun d hd => hd)]
  intro dirs
  induction dirs with
  | nil => intro _; rfl
  | cons dir dirs ih =>
      intro hmem
      simp only [List.foldl_cons]
      have hstep : (if g.IsValidPosition (stepPos p dir) then
          (if distAt g (stepPos p dir) < (distAt g p, ({ x := 0, y := 0 } : Direction)).1 then
            (distAt g (stepPos p dir), dir) else (distAt g p, { x := 0, y := 0 }))
          else (distAt g p, { x := 0, y := 0 }))
          = (distAt g p, ({ x := 0, y := 0 } : Direction)) := by
        by_cases hv : g.IsValidPosition (stepPos p dir) = true
        · rw [if_pos hv, if_neg]
          have := hsmall dir (hmem dir (List.mem_cons_self dir dirs)) hv
          omega
        · simp only [hv]
          simp only [Bool.false_eq_true, if_false]
      rw [hstep]
      exact ih (fun d hd => hmem d (List.mem_cons_of_mem _ hd))

/-! ## Phase 2: what the direction-recording pass does -/

/-- Grid components phase 2 leaves untouched, relative to a reference. -/
def SameP2 (g0 g : Grid) : Prop :=
  g.Width = g0.Width ∧ g.Height = g0.Height ∧ g.Costs = g0.Costs ∧
    g.Distances = g0.Distances ∧ g.CellTypes = g0.CellTypes

theorem sameP2_refl (g : Grid) : SameP2 g g :=
  ⟨rfl, rfl, rfl, rfl, rfl⟩

theorem bestDirAt_congr {cfg : Config} {g0 g : Grid} (hs : SameP2 g0 g) (p : Position) :
    bestDirAt cfg g p = bestDirAt cfg g0 p := by
  unfold bestDirAt distAt get2 Grid.IsValidPosition
  simp only [hs.1, hs.2.1, hs.2.2.2.1]

/-- Invariant of the phase-2 sweep relative to the grid `g0` it started
from: the static parts are untouched and every flow entry is either still
the original one or the best direction of a passable non-goal cell. -/
structure P2Inv (cfg : Config) (goal : Position) (g0 g : Grid) : Prop where
  statics : SameP2 g0 g
  ffwf : ArrWF g.FlowField g0.Width g0.Height
  flows : ∀ p, validP g0 p → flowAt g p = flowAt g0 p ∨
      (passableP g0 p ∧ p ≠ goal ∧ flowAt g p = bestDirAt cfg g0 p)

theorem p2Inv_refl (cfg : Config) (goal : Position) {g0 : Grid}
    (hwf : ArrWF g0.FlowField g0.Width g0.Height) : P2Inv cfg goal g0 g0 :=
  ⟨sameP2_refl g0, hwf, fun _ _ => Or.inl rfl⟩

theorem p2Inv_cell {cfg : Config} {goal : Position} {g0 g : Grid}
    (h : P2Inv cfg goal g0 g) (y x : Nat) :
    P2Inv cfg goal g0 (phase2Cell cfg goal g y x) := by
  unfold phase2Cell
  by_cases hcond : ¬ (g.IsPassable { x := (x : Int), y := (y : Int) } = true)
      ∨ ((x : Int) = goal.x ∧ (y : Int) = goal.y)
  · rw [if_pos hcond]
    exact h
  · rw [if_neg hcond]
    push_neg at hcond
    obtain ⟨hpass, hng⟩ := hcond
    have hyx : ((y : Int).toNat = y ∧ (x : Int).toNat = x) := ⟨Int.toNat_natCast y, Int.toNat_natCast x⟩
    refine ⟨h.statics, ?_, ?_⟩
    · show ArrWF (setN g.FlowField (y : Int).toNat (x : Int).toNat _) g0.Width g0.Height
      exact arrWF_setN h.ffwf ..
    · intro p hp
      have hflow : flowAt { g with FlowField := set2 g.FlowField (y : Int) (x : Int) (bestDirAt cfg g { x := (x : Int), y := (y : Int) }) } p
          = if y = p.y.toNat ∧ x = p.x.toNat ∧ y < g.FlowField.length
              ∧ x < (g.FlowField.getD y []).length
            then bestDirAt cfg g { x := (x : Int), y := (y : Int) }
            else flowAt g p := by
        show getN (setN g.FlowField (y : Int).toNat (x : Int).toNat _) p.y.toNat p.x.toNat _ = _
        rw [getN_setN, hyx.1, hyx.2]
        rfl
      rw [hflow]
      by_cases hm : y = p.y.toNat ∧ x = p.x.toNat ∧ y < g.FlowField.length
          ∧ x < (g.FlowField.getD y []).length
      · rw [if_pos hm]
        have hp' := validP_iff.mp ((validP_congr h.statics.1 h.statics.2.1).mpr hp)
        have hpx : p.x = (x : Int) := by
          have h1 := hm.2.1
          have h2 := hp'.1
          omega
        have hpy : p.y = (y : Int) := by
          have h1 := hm.1
          have h2 := hp'.2.2.1
          omega
        have hpeq : p = { x := (x : Int), y := (y : Int) } := Position.ext hpx hpy
        right
        refine ⟨?_, ?_, ?_⟩
        · rw [hpeq]
          exact (passableP_congr h.statics.1 h.statics.2.1 h.statics.2.2.1).mp hpass
        · intro hgoal
          rw [hpeq] at hgoal
          have h1 : (x : Int) = goal.x := by rw [← hgoal]
          have h2 : (y : Int) = goal.y := by rw [← hgoal]
          exact hng h1 h2
        · rw [hpeq]
          exact bestDirAt_congr h.statics _
      · rw [if_neg hm]
        exact h.flows p hp

theorem p2Inv_fold_inner {cfg : Config} {goal : Position} {g0 : Grid} (y : Nat) :
    ∀ (xs : List Nat) {g : Grid}, P2Inv cfg goal g0 g →
      P2Inv cfg goal g0 (xs.foldl (fun g x => phase2Cell cfg goal g y x) g) := by
  intro xs
  induction xs with
  | nil =>
      intro g h
      exact h
  | cons x xs ih =>
      intro g h
      simp only [List.foldl_cons]
      exact ih (p2Inv_cell h y x)

theorem p2Inv_fold_outer {cfg : Config} {goal : Position} {g0 : Grid} :
    ∀ (ys : List Nat) {g : Grid}, P2Inv cfg goal g0 g →
      P2Inv cfg goal g0 (ys.foldl
        (fun g y => (List.range g.Width.toNat).foldl (fun g x => phase2Cell cfg goal g y x) g)
        g) := by
  intro ys
  induction ys with
  | nil =>
      intro g h
      exact h
  | cons y ys ih =>
      intro g h
      simp only [List.foldl_cons]
      exact ih (p2Inv_fold_inner y _ h)

theorem phase2_p2Inv (cfg : Config) (goal : Position) (g : Grid)
    (hwf : ArrWF g.FlowField g.Width g.Height) :
    P2Inv cfg goal g (phase2 cfg goal g) := by
  unfold phase2
  exact p2Inv_fold_outer _ (p2Inv_refl cfg goal hwf)

/-! ## Small congruence helpers -/

theorem distAt_congr {g g' : Grid} (h : g'.Distances = g.Distances) (p : Position) :
    distAt g' p = distAt g p := by
  unfold distAt get2
  rw [h]

theorem flowAt_congr {g g' : Grid} (h : g'.FlowField = g.FlowField) (p : Position) :
    flowAt g' p = flowAt g p := by
  unfold flowAt get2
  rw [h]

theorem costsOK_congr {g g' : Grid} (h : g'.Costs = g.Costs) : CostsOK g' ↔ CostsOK g := by
  unfold CostsOK
  rw [h]

theorem tense_congr {cfg : Config} {g g' : Grid} (hW : g'.Width = g.Width)
    (hH : g'.Height = g.Height) (hC : g'.Costs = g.Costs) (hD : g'.Distances = g.Distances)
    {u : Position} {d : Direction} : Tense cfg g' u d ↔ Tense cfg g u d := by
  unfold Tense
  rw [validP_congr hW hH, validP_congr hW hH, passableP_congr hW hH hC,
    distAt_congr hD, distAt_congr hD, stepCost_congr hC]

theorem gridWF_of_p2 {g0 g : Grid} (hs : SameP2 g0 g)
    (hff : ArrWF g.FlowField g0.Width g0.Height) (hwf : GridWF g0) : GridWF g := by
  obtain ⟨s1, s2, s3, s4, s5⟩ := hs
  exact ⟨by rw [s1, s2, s3]; exact hwf.1, by rw [s1, s2]; exact hff,
    by rw [s1, s2, s4]; exact hwf.2.2.1, by rw [s1, s2, s5]; exact hwf.2.2.2⟩

/-! ## The state right after the reset and goal seeding -/

theorem gridWF_resetGrid {g : Grid} (hwf : GridWF g) : GridWF (resetGrid g) :=
  ⟨hwf.1, arrWF_replicate .., arrWF_replicate .., hwf.2.2.2⟩

theorem distAt_resetGrid {g : Grid} {p : Position} (hp : validP g p) :
    distAt (resetGrid g) p = INF := by
  show getN (List.replicate g.Height.toNat (List.replicate g.Width.toNat INF))
    p.y.toNat p.x.toNat 0 = INF
  rw [getN_replicate]
  have hp' := validP_iff.mp hp
  rw [if_pos ⟨by omega, by omega⟩]

theorem flowAt_resetGrid (g : Grid) (p : Position) :
    flowAt (resetGrid g) p = { x := 0, y := 0 } := by
  show getN (List.replicate g.Height.toNat (List.replicate g.Width.toNat
    ({ x := 0, y := 0 } : Direction))) p.y.toNat p.x.toNat { x := 0, y := 0 } = _
  rw [getN_replicate]
  split
  · rfl
  · rfl

theorem relaxInv_init {cfg : Config} {goal : Position} {g : Grid}
    (hwf : GridWF g) (hok : CostsOK g) (hdg : 0 ≤ cfg.DiagonalCost)
    (hgv : validP g goal) (hgp : passableP g goal) :
    RelaxInv cfg goal (setDist (resetGrid g) goal 0) [goal] := by
  have hwr : GridWF (resetGrid g) := gridWF_resetGrid hwf
  have hDr : ArrWF (resetGrid g).Distances (resetGrid g).Width (resetGrid g).Height :=
    hwr.2.2.1
  have hgv' : validP (resetGrid g) goal := hgv
  have hdist : ∀ p, validP g p →
      distAt (setDist (resetGrid g) goal 0) p = if goal = p then 0 else INF := by
    intro p hp
    rw [distAt_setDist hDr hgv' hp]
    by_cases hq : goal = p
    · rw [if_pos hq, if_pos hq]
    · rw [if_neg hq, if_neg hq, distAt_resetGrid hp]
  have hINF : (0 : Int) ≤ INF := by decide
  refine ⟨gridWF_setDist hwr goal 0, hok, ?_, ?_, hgv, ?_, ?_, ?_, ?_, ?_⟩
  · intro p hpv
    rw [hdist p hpv]
    by_cases hq : goal = p
    · rw [if_pos hq]
    · rw [if_neg hq]
      exact hINF
  · intro p hpv
    rw [hdist p hpv]
    by_cases hq : goal = p
    · rw [if_pos hq]
      exact hINF
    · rw [if_neg hq]
  · rw [hdist goal hgv, if_pos rfl]
  · intro p hpv hpnp
    have hq : goal ≠ p := fun hq => hpnp (hq ▸ hgp)
    rw [hdist p hpv, if_neg hq]
  · intro p hpv
    by_cases hq : goal = p
    · left
      rw [hdist p hpv, if_pos hq, ← hq]
      exact ReachDist.base
    · right
      rw [hdist p hpv, if_neg hq]
  · intro u d hT
    obtain ⟨hd1, hu, hv, hp2, hlt⟩ := hT
    have hsc : 0 ≤ stepCost cfg (setDist (resetGrid g) goal 0) (stepPos u d) d :=
      stepCost_nonneg hok hwf.1 hdg hp2 d
    by_cases hq : goal = u
    · rw [hq]
      exact List.mem_singleton.mpr rfl
    · exfalso
      have hdu : distAt (setDist (resetGrid g) goal 0) u = INF := by
        rw [hdist u hu, if_neg hq]
      have hdt := hdist (stepPos u d) hv
      rw [hdu] at hlt
      by_cases hq2 : goal = stepPos u d
      · rw [hdt, if_pos hq2] at hlt
        omega
      · rw [hdt, if_neg hq2] at hlt
        omega
  · intro p hp
    rw [List.mem_singleton.mp hp]
    exact ⟨hgv, hgp⟩

/-! ## What a completed `computeFlowField` guarantees -/

theorem computeFlowField_cases {fuel : Nat} {nav nav' : FlowFieldNavigator}
    (h : computeFlowField fuel nav = some nav') :
    ∃ g2, relaxLoop nav.config fuel (setDist (resetGrid nav.grid) nav.goal 0) [nav.goal]
        = some g2 ∧
      nav' = { nav with grid := phase2 nav.config nav.goal g2 } := by
  simp only [computeFlowField] at h
  cases hrel : relaxLoop nav.config fuel (setDist (resetGrid nav.grid) nav.goal 0) [nav.goal] with
  | none =>
      rw [hrel] at h
      exact absurd h (by simp)
  | some g2 =>
      rw [hrel] at h
      injection h with h2
      exact ⟨g2, rfl, h2.symm⟩

/-- Facts that hold of the navigator grid after a completed field
recomputation, stated against the grid `g0` the computation started
from. -/
structure PostField (cfg : Config) (goal : Position) (g0 gf : Grid) : Prop where
  statW : gf.Width = g0.Width
  statH : gf.Height = g0.Height
  statC : gf.Costs = g0.Costs
  statT : gf.CellTypes = g0.CellTypes
  wf : GridWF gf
  nonneg : ∀ p, validP gf p → 0 ≤ distAt gf p
  leInf : ∀ p, validP gf p → distAt gf p ≤ INF
  goalZero : distAt gf goal = 0
  impass : ∀ p, validP gf p → ¬ passableP gf p → distAt gf p = INF
  notense : ∀ u d, ¬ Tense cfg gf u d
  reach : ∀ p, validP gf p → ReachDist cfg gf goal p (distAt gf p) ∨ distAt gf p = INF
  flows : ∀ p, validP gf p → flowAt gf p = { x := 0, y := 0 } ∨
      (passableP gf p ∧ p ≠ goal ∧ flowAt gf p = bestDirAt cfg gf p)

theorem computeFlowField_post {fuel : Nat} {nav nav' : FlowFieldNavigator}
    (hwf : GridWF nav.grid) (hok : CostsOK nav.grid) (hdg : 0 ≤ nav.config.DiagonalCost)
    (hgv : validP nav.grid nav.goal) (hgp : passableP nav.grid nav.goal)
    (h : computeFlowField fuel nav = some nav') :
    nav'.config = nav.config ∧ nav'.goal = nav.goal ∧ nav'.isGoalSet = nav.isGoalSet ∧
      PostField nav.config nav.goal nav.grid nav'.grid := by
  obtain ⟨g2, hrel, hnav⟩ := computeFlowField_cases h
  have hinit := relaxInv_init hwf hok hdg hgv hgp
  obtain ⟨hinv2, hstat⟩ := relaxLoop_inv hdg fuel _ _ g2 hrel hinit
  have hp2 := phase2_p2Inv nav.config nav.goal g2 hinv2.wf.2.1
  subst hnav
  refine ⟨rfl, rfl, rfl, ?_⟩
  have hD2 : (phase2 nav.config nav.goal g2).Distances = g2.Distances :=
    hp2.statics.2.2.2.1
  have hvalid2 : ∀ p, validP (phase2 nav.config nav.goal g2) p ↔ validP g2 p :=
    fun p => validP_congr hp2.statics.1 hp2.statics.2.1
  have hpass2 : ∀ p, passableP (phase2 nav.config nav.goal g2) p ↔ passableP g2 p :=
    fun p => passableP_congr hp2.statics.1 hp2.statics.2.1 hp2.statics.2.2.1
  refine ⟨hp2.statics.1.trans hstat.1, hp2.statics.2.1.trans hstat.2.1,
    hp2.statics.2.2.1.trans hstat.2.2.1, hp2.statics.2.2.2.2.trans hstat.2.2.2.2,
    gridWF_of_p2 hp2.statics hp2.ffwf hinv2.wf, ?_, ?_, ?_, ?_, ?_, ?_, ?_⟩
  · intro p hpv
    rw [distAt_congr hD2]
    exact hinv2.nonneg p ((hvalid2 p).mp hpv)
  · intro p hpv
    rw [distAt_congr hD2]
    exact hinv2.leInf p ((hvalid2 p).mp hpv)
  · rw [distAt_congr hD2]
    exact hinv2.goalZero
  · intro p hpv hpnp
    rw [distAt_congr hD2]
    exact hinv2.impass p ((hvalid2 p).mp hpv) (fun hc => hpnp ((hpass2 p).mpr hc))
  · intro u d hT
    have hmem := hinv2.tense u d
      ((tense_congr hp2.statics.1 hp2.statics.2.1 hp2.statics.2.2.1 hD2).mp hT)
    exact List.not_mem_nil u hmem
  · intro p hpv
    rw [distAt_congr hD2]
    rcases hinv2.reach p ((hvalid2 p).mp hpv) with hr | hr
    · exact Or.inl (@reachDist_congr nav.config g2 (phase2 nav.config nav.goal g2)
        hp2.statics.1 hp2.statics.2.1 hp2.statics.2.2.1 nav.goal p _ hr)
    · exact Or.inr hr
  · intro p hpv
    rcases hp2.flows p ((hvalid2 p).mp hpv) with hr | ⟨hpp, hpg, hbd⟩
    · left
      rw [hr, flowAt_congr hstat.2.2.2.1]
      exact flowAt_resetGrid nav.grid p
    · right
      refine ⟨(hpass2 p).mpr hpp, hpg, ?_⟩
      rw [hbd, bestDirAt_congr hp2.statics]

/-! ## Navigator-level glue -/

theorem validate_diag {c : Config} (h : c.Validate = Except.ok ()) : 0 < c.DiagonalCost := by
  unfold Config.Validate at h
  by_cases h1 : c.GridWidth ≤ 0 ∨ c.GridHeight ≤ 0
  · rw [if_pos h1] at h
    exact absurd h (by simp)
  · rw [if_neg h1] at h
    by_cases h2 : c.Directions.length = 0
    · rw [if_pos h2] at h
      exact absurd h (by simp)
    · rw [if_neg h2] at h
      by_cases h3 : c.DiagonalCost ≤ 0
      · rw [if_pos h3] at h
        exact absurd h (by simp)
      · push_neg at h3
        exact h3

theorem setGoal_cases {fuel : Nat} {nav nav' : FlowFieldNavigator} {goal : Position}
    (h : SetGoal fuel nav goal = some (nav', none)) :
    validP nav.grid goal ∧ passableP nav.grid goal ∧
      computeFlowField fuel { nav with goal := goal, isGoalSet := true } = some nav' := by
  unfold SetGoal at h
  by_cases h1 : ¬ (nav.grid.IsValidPosition goal = true)
  · rw [if_pos h1] at h
    injection h with h2
    exact absurd (congrArg Prod.snd h2) (by simp)
  · rw [if_neg h1] at h
    push_neg at h1
    by_cases h2 : ¬ (nav.grid.IsPassable goal = true)
    · rw [if_pos h2] at h
      injection h with h3
      exact absurd (congrArg Prod.snd h3) (by simp)
    · rw [if_neg h2] at h
      push_neg at h2
      refine ⟨h1, h2, ?_⟩
      cases hcf : computeFlowField fuel { nav with goal := goal, isGoalSet := true } with
      | none =>
          rw [hcf] at h
          exact absurd h (by simp)
      | some n =>
          rw [hcf] at h
          simp only [Option.map_some'] at h
          injection h with h3
          injection h3 with h4 h5
          rw [← h4]

theorem setGoal_of_computeFlowField {fuel : Nat} {nav nav' : FlowFieldNavigator}
    {goal : Position} (hgv : validP nav.grid goal) (hgp : passableP nav.grid goal)
    (hcf : computeFlowField fuel { nav with goal := goal, isGoalSet := true } = some nav') :
    SetGoal fuel nav goal = some (nav', none) := by
  unfold SetGoal
  have h1 : ¬ ¬ (nav.grid.IsValidPosition goal = true) := not_not_intro hgv
  have h2 : ¬ ¬ (nav.grid.IsPassable goal = true) := not_not_intro hgp
  rw [if_neg h1, if_neg h2, hcf]
  rfl

theorem computeFlowField_total {nav : FlowFieldNavigator}
    (hwf : GridWF nav.grid) (hok : CostsOK nav.grid) (hdg : 0 ≤ nav.config.DiagonalCost)
    (hgv : validP nav.grid nav.goal) (hgp : passableP nav.grid nav.goal) :
    ∀ fuel, sumDist (setDist (resetGrid nav.grid) nav.goal 0) + 1 < fuel →
      ∃ nav', computeFlowField fuel nav = some nav' := by
  intro fuel hf
  obtain ⟨g2, hg2⟩ := relaxLoop_total hdg fuel _ [nav.goal]
    (relaxInv_init hwf hok hdg hgv hgp) (by simp only [List.length_singleton]; omega)
  refine ⟨{ nav with grid := phase2 nav.config nav.goal g2 }, ?_⟩
  simp only [computeFlowField]
  rw [hg2]

theorem computeFlowField_mono {fuel fuel' : Nat} {nav nav' : FlowFieldNavigator}
    (hf : fuel ≤ fuel') (h : computeFlowField fuel nav = some nav') :
    computeFlowField fuel' nav = some nav' := by
  obtain ⟨g2, hrel, hnav⟩ := computeFlowField_cases h
  simp only [computeFlowField]
  rw [relaxLoop_mono hf hrel, hnav]

/-! ## Decidability instances for concrete evaluation -/

deriving instance DecidableEq for Except

instance (m : List (List α)) (w h : Int) : Decidable (ArrWF m w h) := by
  unfold ArrWF
  infer_instance

instance (g : Grid) : Decidable (GridWF g) := by
  unfold GridWF
  infer_instance

instance (g : Grid) : Decidable (CostsOK g) := by
  unfold CostsOK
  infer_instance

instance (g : Grid) (p : Position) : Decidable (validP g p) := by
  unfold validP
  infer_instance

instance (g : Grid) (p : Position) : Decidable (passableP g p) := by
  unfold passableP
  infer_instance

/-! ## Concrete fixtures for witnesses -/

/-- A 1×1 four-way configuration (valid under `Config.Validate`). -/
def fourWay1 : Config :=
  { GridWidth := 1, GridHeight := 1, Directions := FourWayDirections,
    DiagonalCost := 1, AllowCornerCutting := false }

/-- A freshly constructed navigator on a 1×1 grid. -/
def nav1x1 : FlowFieldNavigator :=
  { config := fourWay1, grid := NewGrid 1 1, goal := { x := 0, y := 0 }, isGoalSet := false }

/-- The state of `nav1x1` after `SetGoal (0,0)`. -/
def nav1x1goal : FlowFieldNavigator :=
  { config := fourWay1
    grid := { Width := 1, Height := 1, Costs := [[1]], FlowField := [[{ x := 0, y := 0 }]],
              Distances := [[0]], CellTypes := [[CellType.Passable]] }
    goal := { x := 0, y := 0 }, isGoalSet := true }

/-! ## C1 -/

/-- C1: for every valid configuration, every grid state (costs per the
spec's data model: every cell `-1` or nonnegative), and every in-bounds
passable goal, after `SetGoal` returns successfully the goal cell's
recorded distance is 0 and its flow direction is (0,0). -/
theorem setGoal_goal_dist_zero_flow_zero
    (nav : FlowFieldNavigator) (goal : Position) (fuel : Nat) (nav' : FlowFieldNavigator)
    (hval : nav.config.Validate = Except.ok ())
    (hwf : GridWF nav.grid) (hok : CostsOK nav.grid)
    (h : SetGoal fuel nav goal = some (nav', none)) :
    distAt nav'.grid goal = 0 ∧ flowAt nav'.grid goal = { x := 0, y := 0 } := by
  obtain ⟨hgv, hgp, hcf⟩ := setGoal_cases h
  have hdg : 0 ≤ nav.config.DiagonalCost := le_of_lt (validate_diag hval)
  obtain ⟨hc, hg, hs, hpost⟩ := @computeFlowField_post fuel
    { nav with goal := goal, isGoalSet := true } nav' hwf hok hdg hgv hgp hcf
  refine ⟨hpost.goalZero, ?_⟩
  have hgv' : validP nav'.grid goal :=
    (validP_congr hpost.statW hpost.statH).mpr hgv
  rcases hpost.flows goal hgv' with hr | ⟨_, hne, _⟩
  · exact hr
  · exact absurd rfl hne

/-- Witness for C1 on the concrete 1×1 navigator. -/
theorem setGoal_goal_dist_zero_flow_zero_witness :
    nav1x1.config.Validate = Except.ok () ∧ GridWF nav1x1.grid ∧ CostsOK nav1x1.grid ∧
    SetGoal 10 nav1x1 { x := 0, y := 0 } = some (nav1x1goal, none) ∧
    (distAt nav1x1goal.grid { x := 0, y := 0 } = 0 ∧
      flowAt nav1x1goal.grid { x := 0, y := 0 } = { x := 0, y := 0 }) :=
  ⟨by decide, by decide, by decide, by decide,
    setGoal_goal_dist_zero_flow_zero nav1x1 { x := 0, y := 0 } 10 nav1x1goal
      (by decide) (by decide) (by decide) (by decide)⟩

/-! ## C2 -/

/-- C2: on a grid whose passable cells all have nonnegative cost, the
FIFO-queue relaxation terminates: some fuel bound makes `SetGoal` return
(rather than exhaust any amount of fuel). -/
theorem relaxation_terminates
    (nav : FlowFieldNavigator) (goal : Position)
    (hval : nav.config.Validate = Except.ok ())
    (hwf : GridWF nav.grid) (hok : CostsOK nav.grid)
    (hgv : validP nav.grid goal) (hgp : passableP nav.grid goal) :
    ∃ fuel0 : Nat, ∀ fuel, fuel0 ≤ fuel →
      ∃ nav', SetGoal fuel nav goal = some (nav', none) := by
  have hdg : 0 ≤ nav.config.DiagonalCost := le_of_lt (validate_diag hval)
  refine ⟨sumDist (setDist (resetGrid nav.grid) goal 0) + 2, ?_⟩
  intro fuel hfuel
  have heq : sumDist (setDist (resetGrid ({ nav with goal := goal, isGoalSet := true }).grid)
      ({ nav with goal := goal, isGoalSet := true }).goal 0)
      = sumDist (setDist (resetGrid nav.grid) goal 0) := rfl
  obtain ⟨nav', hcf⟩ := @computeFlowField_total { nav with goal := goal, isGoalSet := true }
    hwf hok hdg hgv hgp fuel (by rw [heq]; omega)
  exact ⟨nav', setGoal_of_computeFlowField hgv hgp hcf⟩

/-- Witness for C2 on the concrete 1×1 navigator. -/
theorem relaxation_terminates_witness :
    nav1x1.config.Validate = Except.ok () ∧ GridWF nav1x1.grid ∧ CostsOK nav1x1.grid ∧
    validP nav1x1.grid { x := 0, y := 0 } ∧ passableP nav1x1.grid { x := 0, y := 0 } ∧
    (∃ fuel0 : Nat, ∀ fuel, fuel0 ≤ fuel →
      ∃ nav', SetGoal fuel nav1x1 { x := 0, y := 0 } = some (nav', none)) :=
  ⟨by decide, by decide, by decide, by decide, by decide,
    relaxation_terminates nav1x1 { x := 0, y := 0 }
      (by decide) (by decide) (by decide) (by decide) (by decide)⟩

/-! ## C3 -/

/-- C3 (amended): after a successful recomputation no stored flow
direction points at an out-of-bounds or impassable cell, and every
passable **non-goal** cell all of whose in-bounds neighbors have distance
at least its own keeps direction (0,0) and gets `ErrNoPath` from
`GetFlowDirection`.  (The goal cell itself satisfies the same
neighbor-distance criterion but `GetFlowDirection` returns `(0,0)` with
no error there, see the counterexample.) -/
theorem flow_sound_and_unreachable_nopath
    (nav : FlowFieldNavigator) (goal : Position) (fuel : Nat) (nav' : FlowFieldNavigator)
    (hval : nav.config.Validate = Except.ok ())
    (hwf : GridWF nav.grid) (hok : CostsOK nav.grid)
    (h : SetGoal fuel nav goal = some (nav', none)) :
    (∀ p, validP nav'.grid p → flowAt nav'.grid p ≠ { x := 0, y := 0 } →
      validP nav'.grid (stepPos p (flowAt nav'.grid p)) ∧
        passableP nav'.grid (stepPos p (flowAt nav'.grid p))) ∧
    (∀ p, validP nav'.grid p → passableP nav'.grid p → p ≠ goal →
      (∀ dir ∈ nav.config.Directions, validP nav'.grid (stepPos p dir) →
        distAt nav'.grid p ≤ distAt nav'.grid (stepPos p dir)) →
      flowAt nav'.grid p = { x := 0, y := 0 } ∧
        nav'.GetFlowDirection p = Except.error NavError.ErrNoPath) := by
  obtain ⟨hgv, hgp, hcf⟩ := setGoal_cases h
  have hdg : 0 ≤ nav.config.DiagonalCost := le_of_lt (validate_diag hval)
  obtain ⟨hc, hg, hs, hpost0⟩ := @computeFlowField_post fuel
    { nav with goal := goal, isGoalSet := true } nav' hwf hok hdg hgv hgp hcf
  have hpost : PostField nav.config goal nav.grid nav'.grid := hpost0
  have hgoal' : nav'.goal = goal := hg
  have hset : nav'.isGoalSet = true := hs
  constructor
  · intro p hpv hne
    rcases hpost.flows p hpv with hr | ⟨hpp, hpg, hbd⟩
    · exact absurd hr hne
    · rcases bestDirAt_spec nav.config nav'.grid p with hz | ⟨hvn, hlt⟩
      · exact absurd (hbd.trans hz) hne
      · rw [hbd]
        refine ⟨hvn, ?_⟩
        by_contra hnp
        have hinf := hpost.impass _ hvn hnp
        have hleq := hpost.leInf p hpv
        rw [hinf] at hlt
        omega
  · intro p hpv hpp hpg hsmall
    have hflow : flowAt nav'.grid p = { x := 0, y := 0 } := by
      rcases hpost.flows p hpv with hr | ⟨_, _, hbd⟩
      · exact hr
      · rw [hbd]
        exact bestDirAt_eq_zero hsmall
    refine ⟨hflow, ?_⟩
    unfold FlowFieldNavigator.GetFlowDirection
    rw [if_neg (by rw [hset]; simp)]
    have hvnot : ¬ ¬ (nav'.grid.IsValidPosition p = true) := not_not_intro hpv
    rw [if_neg hvnot, hgoal']
    have hcoord : ¬ (p.x = goal.x ∧ p.y = goal.y) := by
      intro hcc
      exact hpg (Position.ext hcc.1 hcc.2)
    rw [if_neg hcoord]
    have hcond : (flowAt nav'.grid p).x = 0 ∧ (flowAt nav'.grid p).y = 0 ∧
        (p.x ≠ goal.x ∨ p.y ≠ goal.y) := by
      refine ⟨by rw [hflow], by rw [hflow], ?_⟩
      by_cases hx : p.x = goal.x
      · right
        intro hy
        exact hpg (Position.ext hx hy)
      · left
        exact hx
    rw [if_pos hcond]

/-- Counterexample to C3 as stated: on a 1×1 grid after `SetGoal (0,0)`,
the goal cell is passable and satisfies the claim's unreachability
criterion (every in-bounds neighbor has distance at least its own,
vacuously), yet `GetFlowDirection` returns `ok (0,0)`, not the `NoPath`
error the claim demands for every such cell. -/
theorem flow_unreachable_nopath_counterexample :
    SetGoal 10 nav1x1 { x := 0, y := 0 } = some (nav1x1goal, none) ∧
    validP nav1x1goal.grid { x := 0, y := 0 } ∧
    passableP nav1x1goal.grid { x := 0, y := 0 } ∧
    (∀ dir ∈ nav1x1goal.config.Directions,
      validP nav1x1goal.grid (stepPos { x := 0, y := 0 } dir) →
      distAt nav1x1goal.grid { x := 0, y := 0 }
        ≤ distAt nav1x1goal.grid (stepPos { x := 0, y := 0 } dir)) ∧
    nav1x1goal.GetFlowDirection { x := 0, y := 0 } = Except.ok { x := 0, y := 0 } ∧
    nav1x1goal.GetFlowDirection { x := 0, y := 0 } ≠ Except.error NavError.ErrNoPath := by
  decide

/-! ## C4 -/

/-- Mutations through the obstacle/building setters. -/
inductive GridOp where
  | obstacle (p : Position)
  | building (p : Position)

/-- Apply one setter the way a Go caller would: on error the grid is
left unchanged (both setters validate before writing). -/
def applyOp (g : Grid) : GridOp → Grid
  | GridOp.obstacle p =>
      match g.SetObstacle p with
      | Except.ok g' => g'
      | Except.error _ => g
  | GridOp.building p =>
      match g.SetBuilding p with
      | Except.ok g' => g'
      | Except.error _ => g

def applyOps (g : Grid) (ops : List GridOp) : Grid :=
  ops.foldl applyOp g

/-- The spec's invariant: a cell costs `-1` exactly when it is classified
`Obstacle` or `Building` (out-of-range reads give the defaults cost 0 and
`Passable`, which satisfy it vacuously). -/
def CostTypeInv (g : Grid) : Prop :=
  ∀ y x : Nat, getN g.Costs y x 0 = -1 ↔
    (getN g.CellTypes y x CellType.Passable = CellType.Obstacle ∨
      getN g.CellTypes y x CellType.Passable = CellType.Building)

/-- The cost and classification arrays have identical shape. -/
def ShapeEq (g : Grid) : Prop :=
  g.Costs.length = g.CellTypes.length ∧
    ∀ y : Nat, (g.Costs.getD y []).length = (g.CellTypes.getD y []).length

theorem costTypeInv_step {g : Grid} (hs : ShapeEq g) (hi : CostTypeInv g) (yn xn : Nat)
    (c : Int) (t : CellType)
    (hct : c = -1 ↔ (t = CellType.Obstacle ∨ t = CellType.Building)) :
    ShapeEq { g with Costs := setN g.Costs yn xn c, CellTypes := setN g.CellTypes yn xn t } ∧
    CostTypeInv { g with Costs := setN g.Costs yn xn c, CellTypes := setN g.CellTypes yn xn t }
    := by
  have hlen := hs.1
  have hrow := hs.2
  constructor
  · constructor
    · show (setN g.Costs yn xn c).length = (setN g.CellTypes yn xn t).length
      rw [length_setN, length_setN]
      exact hlen
    · intro y
      show ((setN g.Costs yn xn c).getD y []).length
        = ((setN g.CellTypes yn xn t).getD y []).length
      unfold setN
      rw [getD_set, getD_set]
      by_cases hc1 : yn = y ∧ yn < g.Costs.length
      · rw [if_pos hc1, if_pos ⟨hc1.1, by omega⟩, List.length_set, List.length_set]
        exact hrow yn
      · rw [if_neg hc1, if_neg (fun hc2 => hc1 ⟨hc2.1, by omega⟩)]
        exact hrow y
  · intro y x
    show getN (setN g.Costs yn xn c) y x 0 = -1 ↔ _
    rw [getN_setN, getN_setN]
    have hrowyn := hrow yn
    by_cases hc1 : yn = y ∧ xn = x ∧ yn < g.Costs.length ∧ xn < (g.Costs.getD yn []).length
    · rw [if_pos hc1, if_pos ⟨hc1.1, hc1.2.1, by omega, by omega⟩]
      exact hct
    · rw [if_neg hc1, if_neg (fun hc2 => hc1 ⟨hc2.1, hc2.2.1, by omega, by omega⟩)]
      exact hi y x

theorem costTypeInv_applyOp {g : Grid} (hs : ShapeEq g) (hi : CostTypeInv g) (op : GridOp) :
    ShapeEq (applyOp g op) ∧ CostTypeInv (applyOp g op) := by
  cases op with
  | obstacle p =>
      cases hse : g.SetObstacle p with
      | error e =>
          have happ : applyOp g (GridOp.obstacle p) = g := by
            simp only [applyOp]
            rw [hse]
          rw [happ]
          exact ⟨hs, hi⟩
      | ok g' =>
          have happ : applyOp g (GridOp.obstacle p) = g' := by
            simp only [applyOp]
            rw [hse]
          rw [happ]
          unfold Grid.SetObstacle at hse
          by_cases hv : ¬ (g.IsValidPosition p = true)
          · rw [if_pos hv] at hse
            exact absurd hse (by simp)
          · rw [if_neg hv] at hse
            injection hse with hse2
            rw [← hse2]
            exact costTypeInv_step hs hi p.y.toNat p.x.toNat (-1) CellType.Obstacle (by simp)
  | building p =>
      cases hse : g.SetBuilding p with
      | error e =>
          have happ : applyOp g (GridOp.building p) = g := by
            simp only [applyOp]
            rw [hse]
          rw [happ]
          exact ⟨hs, hi⟩
      | ok g' =>
          have happ : applyOp g (GridOp.building p) = g' := by
            simp only [applyOp]
            rw [hse]
          rw [happ]
          unfold Grid.SetBuilding at hse
          by_cases hv : ¬ (g.IsValidPosition p = true)
          · rw [if_pos hv] at hse
            exact absurd hse (by simp)
          · rw [if_neg hv] at hse
            injection hse with hse2
            rw [← hse2]
            exact costTypeInv_step hs hi p.y.toNat p.x.toNat (-1) CellType.Building (by simp)

theorem shapeEq_NewGrid (w h : Int) : ShapeEq (NewGrid w h) := by
  constructor
  · show (List.replicate h.toNat (List.replicate w.toNat (1 : Int))).length
      = (List.replicate h.toNat (List.replicate w.toNat CellType.Passable)).length
    rw [List.length_replicate, List.length_replicate]
  · intro y
    show ((List.replicate h.toNat (List.replicate w.toNat (1 : Int))).getD y []).length
      = ((List.replicate h.toNat (List.replicate w.toNat CellType.Passable)).getD y []).length
    rw [List.getD_eq_getElem?_getD, List.getElem?_replicate,
      List.getD_eq_getElem?_getD, List.getElem?_replicate]
    by_cases hy : y < h.toNat
    · rw [if_pos hy, if_pos hy]
      simp
    · rw [if_neg hy, if_neg hy]
      rfl

theorem costTypeInv_NewGrid (w h : Int) : CostTypeInv (NewGrid w h) := by
  intro y x
  show getN (List.replicate h.toNat (List.replicate w.toNat (1 : Int))) y x 0 = -1 ↔
    (getN (List.replicate h.toNat (List.replicate w.toNat CellType.Passable)) y x
        CellType.Passable = CellType.Obstacle ∨
      getN (List.replicate h.toNat (List.replicate w.toNat CellType.Passable)) y x
        CellType.Passable = CellType.Building)
  rw [getN_replicate, getN_replicate]
  by_cases hc : y < h.toNat ∧ x < w.toNat
  · rw [if_pos hc, if_pos hc]
    decide
  · rw [if_neg hc, if_neg hc]
    decide

/-- C4 (amended): starting from a fresh grid, every sequence of
`SetObstacle`/`SetBuilding` mutations maintains
`cost = -1 ↔ classification ∈ {Obstacle, Building}` at every cell.
(`SetCost` and `UpdateCosts` break the invariant, see the
counterexample.) -/
theorem cost_classification_invariant_obstacle_building (w h : Int) (ops : List GridOp) :
    CostTypeInv (applyOps (NewGrid w h) ops) := by
  suffices hgen : ∀ (ops : List GridOp) (g : Grid), ShapeEq g → CostTypeInv g →
      ShapeEq (applyOps g ops) ∧ CostTypeInv (applyOps g ops) by
    exact (hgen ops (NewGrid w h) (shapeEq_NewGrid w h) (costTypeInv_NewGrid w h)).2
  intro ops
  induction ops with
  | nil =>
      intro g hs hi
      exact ⟨hs, hi⟩
  | cons op ops ih =>
      intro g hs hi
      have hstep := costTypeInv_applyOp hs hi op
      exact ih _ hstep.1 hstep.2

/-- The 1×1 grid after `SetObstacle (0,0)`. -/
def gridObs : Grid :=
  { Width := 1, Height := 1, Costs := [[-1]], FlowField := [[{ x := 0, y := 0 }]],
    Distances := [[0]], CellTypes := [[CellType.Obstacle]] }

/-- `gridObs` after `SetCost (0,0) 5`: cost 5 but still classified
`Obstacle`. -/
def gridObsCost5 : Grid :=
  { Width := 1, Height := 1, Costs := [[5]], FlowField := [[{ x := 0, y := 0 }]],
    Distances := [[0]], CellTypes := [[CellType.Obstacle]] }

/-- Counterexample to C4 as stated: the public sequence
`SetObstacle (0,0)` then `SetCost (0,0) 5` (both succeed) yields a cell
with cost 5 still classified `Obstacle`, so
`cost = -1 ↔ classification ∈ {Obstacle, Building}` fails. -/
theorem cost_classification_invariant_counterexample :
    (NewGrid 1 1).SetObstacle { x := 0, y := 0 } = Except.ok gridObs ∧
    gridObs.SetCost { x := 0, y := 0 } 5 = Except.ok gridObsCost5 ∧
    getN gridObsCost5.Costs 0 0 0 = 5 ∧
    getN gridObsCost5.CellTypes 0 0 CellType.Passable = CellType.Obstacle ∧
    ¬ (getN gridObsCost5.Costs 0 0 0 = -1 ↔
      (getN gridObsCost5.CellTypes 0 0 CellType.Passable = CellType.Obstacle ∨
        getN gridObsCost5.CellTypes 0 0 CellType.Passable = CellType.Building)) := by
  decide

/-! ## C5 -/

/-- C5 (amended): a height mismatch is rejected before anything is
copied, leaving every stored cost unchanged; but a width mismatch in a
later row is only detected after the earlier rows have been copied, so
the caller can observe a partially copied cost grid (see the
counterexample). -/
theorem updateCosts_height_mismatch_unchanged
    (nav : FlowFieldNavigator) (costs : List (List Int)) (fuel : Nat)
    (hh : (costs.length : Int) ≠ nav.grid.Height) :
    UpdateCosts fuel nav costs = some (nav, some NavError.ErrMsgHeightMismatch) := by
  unfold UpdateCosts
  rw [if_pos hh]

/-- A 2×2 four-way configuration. -/
def fourWay2x2 : Config :=
  { GridWidth := 2
    GridHeight := 2
    Directions := FourWayDirections
    DiagonalCost := 1
    AllowCornerCutting := false }

/-- A fresh 2×2 four-way navigator. -/
def nav2x2 : FlowFieldNavigator :=
  { config := fourWay2x2
    grid := NewGrid 2 2
    goal := { x := 0, y := 0 }
    isGoalSet := false }

/-- The grid of `nav2x2` after the failing `UpdateCosts [[5,5],[9]]`:
row 0 already copied, row 1 untouched. -/
def gridPartialCopy : Grid :=
  { Width := 2
    Height := 2
    Costs := [[5, 5], [1, 1]]
    FlowField := [[{ x := 0, y := 0 }, { x := 0, y := 0 }], [{ x := 0, y := 0 }, { x := 0, y := 0 }]]
    Distances := [[0, 0], [0, 0]]
    CellTypes := [[CellType.Passable, CellType.Passable], [CellType.Passable, CellType.Passable]] }

/-- `nav2x2` after the failing `UpdateCosts [[5,5],[9]]`. -/
def nav2x2afterW : FlowFieldNavigator :=
  { config := fourWay2x2
    grid := gridPartialCopy
    goal := { x := 0, y := 0 }
    isGoalSet := false }

/-- Counterexample to C5 as stated: `UpdateCosts [[5,5],[9]]` on a 2×2
navigator returns the width-mismatch error, yet row 0 of the stored costs
has already been replaced by `[5,5]` — the caller observes a partially
copied cost grid. -/
theorem updateCosts_partial_copy_counterexample :
    UpdateCosts 10 nav2x2 [[5, 5], [9]]
      = some (nav2x2afterW, some NavError.ErrMsgWidthMismatch) ∧
    nav2x2afterW.grid.Costs ≠ nav2x2.grid.Costs ∧
    getN nav2x2afterW.grid.Costs 0 0 0 = 5 ∧
    getN nav2x2.grid.Costs 0 0 0 = 1 := by
  decide

/-- Witness for C5 (amended) at a concrete height mismatch. -/
theorem updateCosts_height_mismatch_unchanged_witness :
    ((([] : List (List Int)).length : Int) ≠ nav2x2.grid.Height) ∧
    UpdateCosts 10 nav2x2 [] = some (nav2x2, some NavError.ErrMsgHeightMismatch) :=
  ⟨by decide, updateCosts_height_mismatch_unchanged nav2x2 [] 10 (by decide)⟩

/-! ## C9 -/

theorem updateCostsLoop_err (costs : List (List Int)) (width : Int) :
    ∀ (ys : List Nat) (g : Grid),
      (updateCostsLoop costs width ys g).2 = none ∨
      (updateCostsLoop costs width ys g).2 = some NavError.ErrMsgWidthMismatch := by
  intro ys
  induction ys with
  | nil =>
      intro g
      exact Or.inl rfl
  | cons y ys ih =>
      intro g
      simp only [updateCostsLoop]
      by_cases hw : ((costs.getD y []).length : Int) ≠ width
      · rw [if_pos hw]
        exact Or.inr rfl
      · rw [if_neg hw]
        exact ih _

/-- A 2×1 four-way configuration. -/
def fourWay2x1 : Config :=
  { GridWidth := 2
    GridHeight := 1
    Directions := FourWayDirections
    DiagonalCost := 1
    AllowCornerCutting := false }

/-- The 2×1 navigator used to demonstrate negative-cost participation. -/
def nav2x1 : FlowFieldNavigator :=
  { config := fourWay2x1
    grid := NewGrid 2 1
    goal := { x := 0, y := 0 }
    isGoalSet := false }

/-- The grid of `nav2x1` after `SetGoal (0,0)`. -/
def grid2x1goal : Grid :=
  { Width := 2
    Height := 1
    Costs := [[1, 1]]
    FlowField := [[{ x := 0, y := 0 }, { x := -1, y := 0 }]]
    Distances := [[0, 1]]
    CellTypes := [[CellType.Passable, CellType.Passable]] }

/-- `nav2x1` after `SetGoal (0,0)`. -/
def nav2x1goal : FlowFieldNavigator :=
  { config := fourWay2x1
    grid := grid2x1goal
    goal := { x := 0, y := 0 }
    isGoalSet := true }

/-- The grid of `nav2x1goal` after `UpdateCosts [[10, -5]]`: the `-5`
cell is treated as passable and its negative cost flows into the
recorded distance. -/
def grid2x1neg : Grid :=
  { Width := 2
    Height := 1
    Costs := [[10, -5]]
    FlowField := [[{ x := 0, y := 0 }, { x := 0, y := 0 }]]
    Distances := [[0, -5]]
    CellTypes := [[CellType.Passable, CellType.Passable]] }

/-- `nav2x1goal` after `UpdateCosts [[10, -5]]`. -/
def nav2x1neg : FlowFieldNavigator :=
  { config := fourWay2x1
    grid := grid2x1neg
    goal := { x := 0, y := 0 }
    isGoalSet := true }

/-- C9: for a replacement cost matrix of matching dimensions,
`UpdateCosts` performs no value validation: it never returns
`ErrInvalidCost`; a cell holding `-5` (or any value other than `-1`)
counts as passable; and concretely, pushing `[[10, -5]]` through
`UpdateCosts` on a 2×1 navigator with the goal at (0,0) succeeds and
records distance `-5` for the negative-cost cell. -/
theorem updateCosts_no_cost_validation
    (nav : FlowFieldNavigator) (costs : List (List Int)) (fuel : Nat)
    (hh : (costs.length : Int) = nav.grid.Height)
    (hw : ∀ row ∈ costs, (row.length : Int) = nav.grid.Width) :
    (∀ nav' e, UpdateCosts fuel nav costs = some (nav', some e) →
      e ≠ NavError.ErrInvalidCost) ∧
    (∀ (g : Grid) (p : Position), g.IsValidPosition p = true → costAt g p = -5 →
      g.IsPassable p = true) ∧
    (SetGoal 10 nav2x1 { x := 0, y := 0 } = some (nav2x1goal, none) ∧
      UpdateCosts 10 nav2x1goal [[10, -5]] = some (nav2x1neg, none) ∧
      distAt nav2x1neg.grid { x := 1, y := 0 } = -5 ∧
      costAt nav2x1neg.grid { x := 1, y := 0 } = -5 ∧
      passableP nav2x1neg.grid { x := 1, y := 0 }) := by
  refine ⟨?_, ?_, by decide⟩
  · intro nav' e hup
    unfold UpdateCosts at hup
    rw [if_neg (fun hc => hc hh)] at hup
    rcases hloop : updateCostsLoop costs nav.grid.Width (List.range nav.grid.Height.toNat)
        nav.grid with ⟨g', err⟩
    rw [hloop] at hup
    rcases updateCostsLoop_err costs nav.grid.Width (List.range nav.grid.Height.toNat)
        nav.grid with herr | herr <;> rw [hloop] at herr <;> simp only at herr
    · rw [herr] at hup
      dsimp only at hup
      by_cases hgs : nav.isGoalSet = true
      · rw [if_pos hgs] at hup
        by_cases hpass : ¬ (g'.IsPassable nav.goal = true)
        · rw [if_pos hpass] at hup
          injection hup with h2
          have := congrArg Prod.snd h2
          simp only at this
          injection this with h3
          rw [← h3]
          intro hc
          exact absurd hc (by decide)
        · rw [if_neg hpass] at hup
          cases hcf : computeFlowField fuel
              { config := nav.config, grid := g', goal := nav.goal, isGoalSet := nav.isGoalSet } with
          | none =>
              rw [hcf] at hup
              exact absurd hup (by simp)
          | some n =>
              rw [hcf] at hup
              simp only [Option.map_some'] at hup
              injection hup with h2
              have := congrArg Prod.snd h2
              simp only at this
              exact absurd this (by simp)
      · rw [if_neg hgs] at hup
        injection hup with h2
        have := congrArg Prod.snd h2
        simp only at this
        exact absurd this (by simp)
    · rw [herr] at hup
      injection hup with h2
      have := congrArg Prod.snd h2
      simp only at this
      injection this with h3
      rw [← h3]
      intro hc
      exact absurd hc (by decide)
  · intro g p hv hc
    unfold Grid.IsPassable
    rw [if_neg (not_not_intro hv)]
    have hcc : get2 g.Costs p.y p.x 0 = -5 := hc
    rw [hcc]
    decide

/-- Witness for C9 at the concrete 2×1 navigator and matrix. -/
theorem updateCosts_no_cost_validation_witness :
    ((([[10, -5]] : List (List Int)).length : Int) = nav2x1goal.grid.Height) ∧
    (∀ row ∈ ([[10, -5]] : List (List Int)), (row.length : Int) = nav2x1goal.grid.Width) ∧
    (∀ nav' e, UpdateCosts 10 nav2x1goal [[10, -5]] = some (nav', some e) →
      e ≠ NavError.ErrInvalidCost) :=
  ⟨by decide, by decide,
    (updateCosts_no_cost_validation nav2x1goal [[10, -5]] 10 (by decide) (by decide)).1⟩

/-- Witness for C3 on the concrete 2×1 navigator with goal (0,0). -/
theorem flow_sound_and_unreachable_nopath_witness :
    nav2x1.config.Validate = Except.ok () ∧ GridWF nav2x1.grid ∧ CostsOK nav2x1.grid ∧
    SetGoal 10 nav2x1 { x := 0, y := 0 } = some (nav2x1goal, none) ∧
    ((∀ p, validP nav2x1goal.grid p → flowAt nav2x1goal.grid p ≠ { x := 0, y := 0 } →
      validP nav2x1goal.grid (stepPos p (flowAt nav2x1goal.grid p)) ∧
        passableP nav2x1goal.grid (stepPos p (flowAt nav2x1goal.grid p))) ∧
    (∀ p, validP nav2x1goal.grid p → passableP nav2x1goal.grid p →
      p ≠ { x := 0, y := 0 } →
      (∀ dir ∈ nav2x1.config.Directions, validP nav2x1goal.grid (stepPos p dir) →
        distAt nav2x1goal.grid p ≤ distAt nav2x1goal.grid (stepPos p dir)) →
      flowAt nav2x1goal.grid p = { x := 0, y := 0 } ∧
        nav2x1goal.GetFlowDirection p = Except.error NavError.ErrNoPath)) :=
  ⟨by decide, by decide, by decide, by decide,
    flow_sound_and_unreachable_nopath nav2x1 { x := 0, y := 0 } 10 nav2x1goal
      (by decide) (by decide) (by decide) (by decide)⟩

/-! ## C6 -/

/-- The distance recorded for `p` after a successful `SetGoal goal` on
`f` (`none` if the call errors or the fuel runs out). -/
def distAfterSetGoal (fuel : Nat) (f : FlowFieldNavigator) (goal p : Position) : Option Int :=
  match SetGoal fuel f goal with
  | some (nav1, none) => some (distAt nav1.grid p)
  | _ => none

/-- The freshly constructed 5×5 eight-way navigator (all costs 1). -/
def nav5x5 : FlowFieldNavigator :=
  { config := EightWayConfig 5 5
    grid := NewGrid 5 5
    goal := { x := 0, y := 0 }
    isGoalSet := false }

/-- C6 (amended): on the fresh 5×5 all-costs-1 grid under the 8-way
config with diagonal multiplier 1.4, after `SetGoal (2,2)` the recorded
distance of (0,0) is 2, not round(2 × 1.4) = 3: Go truncates
`int(float64(1) * 1.4) = 1` on each diagonal step separately, so each of
the two diagonal steps contributes 1. -/
theorem diag_5x5_distance_is_two :
    NewFlowFieldNavigator (EightWayConfig 5 5) = Except.ok nav5x5 ∧
    stepCost (EightWayConfig 5 5) nav5x5.grid { x := 1, y := 1 } { x := 1, y := 1 } = 1 ∧
    distAfterSetGoal 2000 nav5x5 { x := 2, y := 2 } { x := 0, y := 0 } = some 2 := by
  decide

/-- Counterexample to C6 as stated: the recorded distance of (0,0) is
not 3. -/
theorem diag_5x5_distance_counterexample :
    NewFlowFieldNavigator (EightWayConfig 5 5) = Except.ok nav5x5 ∧
    distAfterSetGoal 2000 nav5x5 { x := 2, y := 2 } { x := 0, y := 0 } ≠ some 3 := by
  decide

/-! ## C10 -/

theorem goCopy_eq {dst src : List α} (h : dst.length = src.length) : goCopy dst src = src := by
  unfold goCopy
  rw [h, Nat.min_self, List.take_length, ← h, List.drop_length, List.append_nil]

theorem getD_of_le {l : List α} {i : Nat} (d : α) (h : l.length ≤ i) : l.getD i d = d := by
  rw [List.getD_eq_getElem?_getD, List.getElem?_eq_none h]
  rfl

theorem goCopy_nil (src : List α) : goCopy ([] : List α) src = [] := by
  unfold goCopy
  simp

/-- The fold of `GetGrid` acts on the three copied arrays independently. -/
theorem getGrid_fold (f : FlowFieldNavigator) (l : List Nat) (gc : Grid) :
    l.foldl
      (fun gc y =>
        { gc with
          Costs := gc.Costs.set y (goCopy (gc.Costs.getD y []) (f.grid.Costs.getD y []))
          FlowField :=
            gc.FlowField.set y (goCopy (gc.FlowField.getD y []) (f.grid.FlowField.getD y []))
          Distances :=
            gc.Distances.set y (goCopy (gc.Distances.getD y []) (f.grid.Distances.getD y [])) })
      gc
    = { gc with
        Costs := l.foldl
          (fun a y => a.set y (goCopy (a.getD y []) (f.grid.Costs.getD y []))) gc.Costs
        FlowField := l.foldl
          (fun a y => a.set y (goCopy (a.getD y []) (f.grid.FlowField.getD y []))) gc.FlowField
        Distances := l.foldl
          (fun a y => a.set y (goCopy (a.getD y []) (f.grid.Distances.getD y []))) gc.Distances } := by
  induction l generalizing gc with
  | nil => rfl
  | cons y ys ih =>
      rw [List.foldl_cons, ih]
      rfl

/-- Row-wise description of one array's copy fold: each row below `n`
becomes `goCopy` of the original row with the source row. -/
theorem copyRows_spec (src : List (List α)) (a0 : List (List α)) (n : Nat) :
    ((List.range n).foldl (fun a y => a.set y (goCopy (a.getD y []) (src.getD y []))) a0).length
        = a0.length ∧
    ∀ y : Nat, ((List.range n).foldl
        (fun a y => a.set y (goCopy (a.getD y []) (src.getD y []))) a0).getD y []
      = if y < n then goCopy (a0.getD y []) (src.getD y []) else a0.getD y [] := by
  induction n with
  | zero => simp
  | succ n ih =>
      obtain ⟨ihl, ihr⟩ := ih
      rw [List.range_succ, List.foldl_append, List.foldl_cons, List.foldl_nil]
      set r := (List.range n).foldl
        (fun a y => a.set y (goCopy (a.getD y []) (src.getD y []))) a0 with hr
      constructor
      · rw [List.length_set, ihl]
      · intro y
        rw [getD_set]
        by_cases hny : n = y
        · subst hny
          have hrow : r.getD n [] = a0.getD n [] := by
            rw [ihr n, if_neg (lt_irrefl n)]
          by_cases hlen : n < r.length
          · rw [if_pos ⟨rfl, hlen⟩, hrow, if_pos (Nat.lt_succ_self n)]
          · have hna : a0.length ≤ n := by rw [← ihl]; omega
            rw [if_neg (fun hc => hlen hc.2), hrow, if_pos (Nat.lt_succ_self n),
              getD_of_le [] hna, goCopy_nil]
        · rw [if_neg (fun hc => hny hc.1), ihr y]
          by_cases hyn : y < n
          · rw [if_pos hyn, if_pos (Nat.lt_succ_of_lt hyn)]
          · have hys : ¬ y < n + 1 := by omega
            rw [if_neg hyn, if_neg hys]

theorem list_eq_of_getD {l₁ l₂ : List (List α)} (hl : l₁.length = l₂.length)
    (h : ∀ y < l₁.length, l₁.getD y [] = l₂.getD y []) : l₁ = l₂ := by
  apply List.ext_getElem?
  intro i
  by_cases hi : i < l₁.length
  · have hi2 : i < l₂.length := by omega
    rw [List.getElem?_eq_getElem hi, List.getElem?_eq_getElem hi2]
    have heq := h i hi
    rw [List.getD_eq_getElem _ [] hi, List.getD_eq_getElem _ [] hi2] at heq
    rw [heq]
  · rw [List.getElem?_eq_none (le_of_not_lt hi), List.getElem?_eq_none (by omega)]

theorem getD_replicate_row (h w : Nat) (v : α) {y : Nat} (hy : y < h) :
    (List.replicate h (List.replicate w v)).getD y [] = List.replicate w v := by
  rw [List.getD_eq_getElem _ [] (by simpa using hy), List.getElem_replicate]

/-- Copying a well-formed `w × h` array over a fresh replicate reproduces
the array exactly. -/
theorem copyRows_id {w h : Int} {src : List (List α)} (hsrc : ArrWF src w h) (v : α) :
    (List.range h.toNat).foldl
      (fun a y => a.set y (goCopy (a.getD y []) (src.getD y [])))
      (List.replicate h.toNat (List.replicate w.toNat v)) = src := by
  obtain ⟨hlen, hspec⟩ :=
    copyRows_spec src (List.replicate h.toNat (List.replicate w.toNat v)) h.toNat
  apply list_eq_of_getD
  · rw [hlen, List.length_replicate, hsrc.1]
  · intro y hy
    have hy' : y < h.toNat := by rw [hlen, List.length_replicate] at hy; exact hy
    have hy2 : y < src.length := by rw [hsrc.1]; exact hy'
    have hdl : (List.replicate w.toNat v).length = (src.getD y []).length := by
      rw [List.length_replicate, row_length hsrc hy2]
    rw [hspec y, if_pos hy', getD_replicate_row _ _ _ hy', goCopy_eq hdl]

/-- C10: on a shape-well-formed navigator grid, `GetGrid` returns a grid
with the same dimensions whose costs, flow field and distances equal the
navigator's, but whose `CellTypes` is the fresh all-`Passable` array of
`NewGrid` — the actual cell classifications are not copied.  (In this
functional model the returned value is a separate structure, so no
mutation of it can affect `f.grid`.) -/
theorem getGrid_copies_all_cells_passable (f : FlowFieldNavigator) (hwf : GridWF f.grid) :
    (GetGrid f).Width = f.grid.Width ∧
    (GetGrid f).Height = f.grid.Height ∧
    (GetGrid f).Costs = f.grid.Costs ∧
    (GetGrid f).FlowField = f.grid.FlowField ∧
    (GetGrid f).Distances = f.grid.Distances ∧
    (GetGrid f).CellTypes =
      List.replicate f.grid.Height.toNat (List.replicate f.grid.Width.toNat CellType.Passable) := by
  unfold GetGrid
  rw [getGrid_fold]
  exact ⟨rfl, rfl, copyRows_id hwf.1 1, copyRows_id hwf.2.1 { x := 0, y := 0 },
    copyRows_id hwf.2.2.1 0, rfl⟩

/-- A 1×1 navigator whose single cell is a `Building` with cost `-1`. -/
def navBuild : FlowFieldNavigator :=
  { config := fourWay1
    grid := { Width := 1, Height := 1, Costs := [[-1]], FlowField := [[{ x := 0, y := 0 }]],
              Distances := [[0]], CellTypes := [[CellType.Building]] }
    goal := { x := 0, y := 0 }, isGoalSet := false }

/-- Witness for C10 on a navigator with a `Building` cell: the copy keeps
the `-1` cost but reports the cell as `Passable`. -/
theorem getGrid_copies_all_cells_passable_witness :
    GridWF navBuild.grid ∧
    ((GetGrid navBuild).Width = navBuild.grid.Width ∧
      (GetGrid navBuild).Height = navBuild.grid.Height ∧
      (GetGrid navBuild).Costs = navBuild.grid.Costs ∧
      (GetGrid navBuild).FlowField = navBuild.grid.FlowField ∧
      (GetGrid navBuild).Distances = navBuild.grid.Distances ∧
      (GetGrid navBuild).CellTypes =
        List.replicate navBuild.grid.Height.toNat
          (List.replicate navBuild.grid.Width.toNat CellType.Passable)) :=
  ⟨by decide, getGrid_copies_all_cells_passable navBuild (by decide)⟩

/-! ## C7 -/

theorem grid_eq {g₁ g₂ : Grid} (hW : g₁.Width = g₂.Width) (hH : g₁.Height = g₂.Height)
    (hC : g₁.Costs = g₂.Costs) (hF : g₁.FlowField = g₂.FlowField)
    (hD : g₁.Distances = g₂.Distances) (hT : g₁.CellTypes = g₂.CellTypes) : g₁ = g₂ := by
  cases g₁
  cases g₂
  simp only [Grid.mk.injEq]
  exact ⟨hW, hH, hC, hF, hD, hT⟩

theorem set_getD_self (l : List α) (y : Nat) (d : α) (hy : y < l.length) :
    l.set y (l.getD y d) = l := by
  apply List.ext_getElem?
  intro i
  rw [List.getElem?_set]
  by_cases hiy : y = i
  · subst hiy
    simp [hy, List.getD_eq_getElem l d hy]
  · simp [hiy]

/-- Copying a grid's own costs over itself row by row is the identity. -/
theorem updateCostsLoop_self (width : Int) (g : Grid) :
    ∀ ys : List Nat, (∀ y ∈ ys, ((g.Costs.getD y []).length : Int) = width) →
      updateCostsLoop g.Costs width ys g = (g, none) := by
  intro ys
  induction ys with
  | nil => intro _; rfl
  | cons y ys ih =>
      intro h
      unfold updateCostsLoop
      rw [if_neg (not_ne_iff.mpr (h y (List.mem_cons_self y ys)))]
      have hcopy : goCopy (g.Costs.getD y []) (g.Costs.getD y []) = g.Costs.getD y [] :=
        goCopy_eq rfl
      have hgrid :
          { g with Costs := g.Costs.set y (goCopy (g.Costs.getD y []) (g.Costs.getD y [])) }
            = g := by
        rw [hcopy]
        by_cases hy : y < g.Costs.length
        · rw [set_getD_self g.Costs y [] hy]
        · rw [List.set_eq_of_length_le (Nat.le_of_not_lt hy)]
      rw [hgrid]
      exact ih (fun z hz => h z (List.mem_cons_of_mem y hz))

theorem resetGrid_congr {gA gB : Grid} (hW : gA.Width = gB.Width) (hH : gA.Height = gB.Height)
    (hC : gA.Costs = gB.Costs) (hT : gA.CellTypes = gB.CellTypes) :
    resetGrid gA = resetGrid gB := by
  refine grid_eq hW hH hC ?_ ?_ hT
  · show List.replicate gA.Height.toNat (List.replicate gA.Width.toNat
        ({ x := 0, y := 0 } : Direction))
      = List.replicate gB.Height.toNat (List.replicate gB.Width.toNat { x := 0, y := 0 })
    rw [hW, hH]
  · show List.replicate gA.Height.toNat (List.replicate gA.Width.toNat INF)
      = List.replicate gB.Height.toNat (List.replicate gB.Width.toNat INF)
    rw [hW, hH]

/-- Rerunning the field computation on the already-computed navigator
reproduces the navigator: the computation starts from `resetGrid`, which
depends only on the (unchanged) static data. -/
theorem computeFlowField_replay {f₁ f₂ : Nat} {nav nav₁ : FlowFieldNavigator} {goal : Position}
    (hcf : computeFlowField f₁ { nav with goal := goal, isGoalSet := true } = some nav₁)
    (hst : PostField nav.config goal nav.grid nav₁.grid)
    (hf : f₁ ≤ f₂) :
    computeFlowField f₂ nav₁ = some nav₁ := by
  obtain ⟨g2, hrel, hnav⟩ := computeFlowField_cases hcf
  dsimp only at hrel
  have hcfg : nav₁.config = nav.config := by rw [hnav]
  have hgoal : nav₁.goal = goal := by rw [hnav]
  have hreset : resetGrid nav₁.grid = resetGrid nav.grid :=
    resetGrid_congr hst.statW hst.statH hst.statC hst.statT
  simp only [computeFlowField]
  rw [hcfg, hgoal, hreset, relaxLoop_mono hf hrel, hnav]

/-- C7: on a navigator whose field was just computed by a successful
`SetGoal`, calling `UpdateCosts` with the grid's current cost matrix
succeeds and returns the very same navigator — in particular the
distance and flow-direction arrays are unchanged. -/
theorem updateCosts_idempotent
    (nav nav₁ : FlowFieldNavigator) (goal : Position) (f₁ f₂ : Nat)
    (hval : nav.config.Validate = Except.ok ())
    (hwf : GridWF nav.grid) (hok : CostsOK nav.grid)
    (h1 : SetGoal f₁ nav goal = some (nav₁, none))
    (hf : f₁ ≤ f₂) :
    UpdateCosts f₂ nav₁ nav₁.grid.Costs = some (nav₁, none) := by
  obtain ⟨hgv, hgp, hcf⟩ := setGoal_cases h1
  have hdg : 0 ≤ nav.config.DiagonalCost := le_of_lt (validate_diag hval)
  obtain ⟨hc, hg, hs, hpost0⟩ := @computeFlowField_post f₁
    { nav with goal := goal, isGoalSet := true } nav₁ hwf hok hdg hgv hgp hcf
  have hpost : PostField nav.config goal nav.grid nav₁.grid := hpost0
  have hdims := validP_iff.mp hgv
  have hwf₁ : GridWF nav₁.grid := hpost.wf
  have hW1 : nav₁.grid.Width = nav.grid.Width := hpost.statW
  have hH1 : nav₁.grid.Height = nav.grid.Height := hpost.statH
  have hhlen : (nav₁.grid.Costs.length : Int) = nav₁.grid.Height := by
    rw [hwf₁.1.1, hH1]
    exact Int.toNat_of_nonneg (by omega)
  have hloop : updateCostsLoop nav₁.grid.Costs nav₁.grid.Width
      (List.range nav₁.grid.Height.toNat) nav₁.grid = (nav₁.grid, none) := by
    apply updateCostsLoop_self
    intro y hy
    have hy' : y < nav₁.grid.Costs.length := by
      rw [hwf₁.1.1]
      exact List.mem_range.mp hy
    rw [row_length hwf₁.1 hy', hW1]
    exact Int.toNat_of_nonneg (by omega)
  have hgp₁ : passableP nav₁.grid goal := (passableP_congr hW1 hH1 hpost.statC).mpr hgp
  have hs' : nav₁.isGoalSet = true := hs
  have hg' : nav₁.goal = goal := hg
  have hpass' : nav₁.grid.IsPassable nav₁.goal = true := by
    rw [hg']
    exact hgp₁
  have hreplay : computeFlowField f₂ nav₁ = some nav₁ :=
    computeFlowField_replay hcf hpost hf
  unfold UpdateCosts
  rw [if_neg (not_ne_iff.mpr hhlen), hloop]
  dsimp only
  rw [if_pos hs', if_neg (not_not_intro hpass'), hreplay]
  rfl

/-- Witness for C7 on the concrete 1×1 navigator. -/
theorem updateCosts_idempotent_witness :
    nav1x1.config.Validate = Except.ok () ∧ GridWF nav1x1.grid ∧ CostsOK nav1x1.grid ∧
    SetGoal 10 nav1x1 { x := 0, y := 0 } = some (nav1x1goal, none) ∧
    UpdateCosts 10 nav1x1goal nav1x1goal.grid.Costs = some (nav1x1goal, none) :=
  ⟨by decide, by decide, by decide, by decide,
    updateCosts_idempotent nav1x1 nav1x1goal { x := 0, y := 0 } 10 10
      (by decide) (by decide) (by decide) (by decide) (le_refl 10)⟩

/-! ## C8 -/

theorem stepCost_mono {cfg : Config} {gA gB : Grid} (hdg : 0 ≤ cfg.DiagonalCost)
    {next : Position} (hc0 : 0 ≤ costAt gA next) (hc : costAt gA next ≤ costAt gB next)
    (dir : Direction) : stepCost cfg gA next dir ≤ stepCost cfg gB next dir := by
  unfold costAt at hc0 hc
  simp only [stepCost]
  by_cases hd : isDiagonal dir = true
  · rw [if_pos hd, if_pos hd]
    refine tdiv_le_tdiv_of_le (mul_nonneg hc0 (Rat.num_nonneg.mpr hdg))
      (mul_le_mul_of_nonneg_right hc (Rat.num_nonneg.mpr hdg)) ?_
    exact_mod_cast cfg.DiagonalCost.den_pos
  · rw [if_neg hd, if_neg hd]
    exact hc

/-- Any walk distance realizable on the costlier grid `gB` is dominated
by a walk distance realizable on the cheaper grid `gA`. -/
theorem reachDist_mono {cfg : Config} {gA gB : Grid} (hdg : 0 ≤ cfg.DiagonalCost)
    (hW : gB.Width = gA.Width) (hH : gB.Height = gA.Height)
    (hcostm : ∀ p, validP gA p → costAt gA p ≤ costAt gB p)
    (hpass : ∀ p, validP gA p → passableP gB p → passableP gA p)
    (hcost0 : ∀ p, validP gA p → passableP gA p → 0 ≤ costAt gA p)
    {goal p : Position} {d : Int}
    (h : ReachDist cfg gB goal p d) :
    ∃ dA, dA ≤ d ∧ ReachDist cfg gA goal p dA := by
  induction h with
  | base => exact ⟨0, le_refl 0, ReachDist.base⟩
  | @step u d0 dir hu hdir hv hp ih =>
      obtain ⟨dA, hle, hA⟩ := ih
      have hvA : validP gA (stepPos u dir) := (validP_congr hW hH).mp hv
      have hpA : passableP gA (stepPos u dir) := hpass _ hvA hp
      refine ⟨dA + stepCost cfg gA (stepPos u dir) dir, ?_,
        ReachDist.step dir hA hdir hvA hpA⟩
      have hsc := stepCost_mono hdg (hcost0 _ hvA hpA) (hcostm _ hvA) dir
      omega

theorem setCost_ok_cases {g g' : Grid} {t : Position} {newc : Int}
    (h : g.SetCost t newc = Except.ok g') :
    validP g t ∧ 0 ≤ newc ∧ g' = { g with Costs := set2 g.Costs t.y t.x newc } := by
  unfold Grid.SetCost at h
  by_cases h1 : ¬ (g.IsValidPosition t = true)
  · rw [if_pos h1] at h
    exact absurd h (by simp)
  · rw [if_neg h1] at h
    push_neg at h1
    by_cases h2 : newc < 0
    · rw [if_pos h2] at h
      exact absurd h (by simp)
    · rw [if_neg h2] at h
      injection h with h3
      exact ⟨h1, le_of_not_lt h2, h3.symm⟩

theorem costAt_set2 {g : Grid} (hwfc : ArrWF g.Costs g.Width g.Height)
    {t : Position} (ht : validP g t) (newc : Int) {p : Position} (hp : validP g p) :
    costAt { g with Costs := set2 g.Costs t.y t.x newc } p
      = if p = t then newc else costAt g p := by
  show getN (setN g.Costs t.y.toNat t.x.toNat newc) p.y.toNat p.x.toNat 0
    = if p = t then newc else costAt g p
  rw [getN_setN]
  by_cases hc : t.y.toNat = p.y.toNat ∧ t.x.toNat = p.x.toNat ∧
      t.y.toNat < g.Costs.length ∧ t.x.toNat < (g.Costs.getD t.y.toNat []).length
  · rw [if_pos hc, if_pos (eq_of_coords hp ht hc.1.symm hc.2.1.symm)]
  · rw [if_neg hc]
    have hpt : ¬ p = t := by
      intro he
      subst he
      exact hc ⟨rfl, rfl, ht.ynat_lt hwfc, ht.xnat_lt hwfc (ht.ynat_lt hwfc)⟩
    rw [if_neg hpt]
    rfl

theorem gridWF_setCost {g : Grid} (hwf : GridWF g) (t : Position) (newc : Int) :
    GridWF { g with Costs := set2 g.Costs t.y t.x newc } :=
  ⟨arrWF_setN hwf.1 t.y.toNat t.x.toNat newc, hwf.2.1, hwf.2.2.1, hwf.2.2.2⟩

theorem costsOK_set2 {g : Grid} (hok : CostsOK g) {newc : Int} (h0 : 0 ≤ newc)
    (t : Position) : CostsOK { g with Costs := set2 g.Costs t.y t.x newc } := by
  unfold CostsOK
  intro r hr c hc
  have hr' : r ∈ setN g.Costs t.y.toNat t.x.toNat newc := hr
  unfold setN at hr'
  rcases List.mem_or_eq_of_mem_set hr' with h1 | h1
  · exact hok r h1 c hc
  · subst h1
    rcases List.mem_or_eq_of_mem_set hc with h2 | h2
    · by_cases hy : t.y.toNat < g.Costs.length
      · have hrow : g.Costs.getD t.y.toNat [] ∈ g.Costs := by
          rw [List.getD_eq_getElem _ _ hy]
          exact List.getElem_mem hy
        exact hok _ hrow c h2
      · rw [getD_of_le [] (Nat.le_of_not_lt hy)] at h2
        exact absurd h2 (List.not_mem_nil c)
    · subst h2
      exact Or.inr h0

/-- C8: raising the cost of one cell `t` from a nonnegative value to a
larger nonnegative value via `SetCost` (the cell stays passable) and
recomputing the field with `SetGoal` never decreases any cell's recorded
distance. -/
theorem single_cell_cost_increase_monotone
    (nav : FlowFieldNavigator) (t : Position) (newc : Int) (g' : Grid)
    (goal : Position) (f₁ f₂ : Nat) (nav₁ nav₂ : FlowFieldNavigator)
    (hval : nav.config.Validate = Except.ok ())
    (hwf : GridWF nav.grid) (hok : CostsOK nav.grid)
    (hold : 0 ≤ costAt nav.grid t) (hinc : costAt nav.grid t ≤ newc)
    (hset : nav.grid.SetCost t newc = Except.ok g')
    (h1 : SetGoal f₁ nav goal = some (nav₁, none))
    (h2 : SetGoal f₂ { nav with grid := g' } goal = some (nav₂, none)) :
    ∀ p, validP nav.grid p → distAt nav₁.grid p ≤ distAt nav₂.grid p := by
  obtain ⟨htv, hnc0, hg'⟩ := setCost_ok_cases hset
  subst hg'
  have hdg : 0 ≤ nav.config.DiagonalCost := le_of_lt (validate_diag hval)
  obtain ⟨hgvA, hgpA, hcfA⟩ := setGoal_cases h1
  obtain ⟨hc₁, hg₁, hs₁, hpost₁0⟩ := @computeFlowField_post f₁
    { nav with goal := goal, isGoalSet := true } nav₁ hwf hok hdg hgvA hgpA hcfA
  have hpost₁ : PostField nav.config goal nav.grid nav₁.grid := hpost₁0
  obtain ⟨hgvB0, hgpB0, hcfB⟩ := setGoal_cases h2
  have hgvB : validP { nav.grid with Costs := set2 nav.grid.Costs t.y t.x newc } goal := hgvB0
  have hgpB : passableP { nav.grid with Costs := set2 nav.grid.Costs t.y t.x newc } goal := hgpB0
  have hwfB : GridWF { nav.grid with Costs := set2 nav.grid.Costs t.y t.x newc } :=
    gridWF_setCost hwf t newc
  have hokB : CostsOK { nav.grid with Costs := set2 nav.grid.Costs t.y t.x newc } :=
    costsOK_set2 hok (le_trans hold hinc) t
  obtain ⟨hc₂, hg₂, hs₂, hpost₂0⟩ := @computeFlowField_post f₂
    { nav with
      grid := { nav.grid with Costs := set2 nav.grid.Costs t.y t.x newc }
      goal := goal
      isGoalSet := true } nav₂ hwfB hokB hdg hgvB hgpB hcfB
  have hpost₂ : PostField nav.config goal
      { nav.grid with Costs := set2 nav.grid.Costs t.y t.x newc } nav₂.grid := hpost₂0
  have hcostm : ∀ p, validP nav.grid p →
      costAt nav.grid p ≤ costAt { nav.grid with Costs := set2 nav.grid.Costs t.y t.x newc } p := by
    intro p hp
    rw [costAt_set2 hwf.1 htv newc hp]
    by_cases hpt : p = t
    · subst hpt
      rw [if_pos rfl]
      exact hinc
    · rw [if_neg hpt]
  have hpassBA : ∀ p, validP nav.grid p →
      passableP { nav.grid with Costs := set2 nav.grid.Costs t.y t.x newc } p →
      passableP nav.grid p := by
    intro p hp hpb
    have hcB := (passableP_iff.mp hpb).2
    rw [costAt_set2 hwf.1 htv newc hp] at hcB
    refine passableP_iff.mpr ⟨hp, ?_⟩
    by_cases hpt : p = t
    · subst hpt
      omega
    · rw [if_neg hpt] at hcB
      exact hcB
  have hcost0A : ∀ p, validP nav.grid p → passableP nav.grid p → 0 ≤ costAt nav.grid p :=
    fun p _ hp => costAt_nonneg_of_passable hok hwf.1 hp
  intro p hpv
  have hpv₁ : validP nav₁.grid p := (validP_congr hpost₁.statW hpost₁.statH).mpr hpv
  have hpv₂ : validP nav₂.grid p :=
    (validP_congr hpost₂.statW hpost₂.statH).mpr ((validP_congr rfl rfl).mpr hpv)
  have hgv₁ : validP nav₁.grid goal := (validP_congr hpost₁.statW hpost₁.statH).mpr hgvA
  rcases hpost₂.reach p hpv₂ with hr | hinf
  · have hrB : ReachDist nav.config { nav.grid with Costs := set2 nav.grid.Costs t.y t.x newc }
        goal p (distAt nav₂.grid p) :=
      reachDist_congr hpost₂.statW.symm hpost₂.statH.symm hpost₂.statC.symm hr
    obtain ⟨dA, hle, hrA⟩ := @reachDist_mono nav.config nav.grid
      { nav.grid with Costs := set2 nav.grid.Costs t.y t.x newc } hdg rfl rfl
      hcostm hpassBA hcost0A goal p (distAt nav₂.grid p) hrB
    have hrA₁ : ReachDist nav.config nav₁.grid goal p dA :=
      reachDist_congr hpost₁.statW hpost₁.statH hpost₁.statC hrA
    have hda := dist_le_reachDist hpost₁.notense hpost₁.goalZero hgv₁ hrA₁
    omega
  · rw [hinf]
    exact hpost₁.leInf p hpv₁

/-- The grid of `nav2x1` right after `SetCost (1,0) 5`. -/
def grid2x1incBase : Grid :=
  { Width := 2, Height := 1, Costs := [[1, 5]],
    FlowField := [[{ x := 0, y := 0 }, { x := 0, y := 0 }]],
    Distances := [[0, 0]], CellTypes := [[CellType.Passable, CellType.Passable]] }

/-- The navigator state after `SetGoal (0,0)` on the increased-cost grid. -/
def nav2x1inc : FlowFieldNavigator :=
  { config := fourWay2x1
    grid := { Width := 2, Height := 1, Costs := [[1, 5]],
              FlowField := [[{ x := 0, y := 0 }, { x := -1, y := 0 }]],
              Distances := [[0, 5]], CellTypes := [[CellType.Passable, CellType.Passable]] }
    goal := { x := 0, y := 0 }, isGoalSet := true }

/-- Witness for C8 on the 2×1 navigator, raising the cost of cell (1,0)
from 1 to 5. -/
theorem single_cell_cost_increase_monotone_witness :
    nav2x1.config.Validate = Except.ok () ∧ GridWF nav2x1.grid ∧ CostsOK nav2x1.grid ∧
    0 ≤ costAt nav2x1.grid { x := 1, y := 0 } ∧
    costAt nav2x1.grid { x := 1, y := 0 } ≤ 5 ∧
    nav2x1.grid.SetCost { x := 1, y := 0 } 5 = Except.ok grid2x1incBase ∧
    SetGoal 10 nav2x1 { x := 0, y := 0 } = some (nav2x1goal, none) ∧
    SetGoal 10 { nav2x1 with grid := grid2x1incBase } { x := 0, y := 0 }
      = some (nav2x1inc, none) ∧
    (∀ p, validP nav2x1.grid p →
      distAt nav2x1goal.grid p ≤ distAt nav2x1inc.grid p) :=
  ⟨by decide, by decide, by decide, by decide, by decide, by decide, by decide, by decide,
    single_cell_cost_increase_monotone nav2x1 { x := 1, y := 0 } 5 grid2x1incBase
      { x := 0, y := 0 } 10 10 nav2x1goal nav2x1inc
      (by decide) (by decide) (by decide) (by decide) (by decide) (by decide)
      (by decide) (by decide)⟩
